import Mathlib

/-!
Verification of the multi-master synchronization engine of the
Campus-Second_hand-Trading-System repository.

The definitions below are a shallow embedding of the Python source:

* `backend/apps/services/sync_core_worker.py` — vector clocks, the
  per-event replication decision (`_process_edge_row`), the idempotent
  upsert (`_upsert_row`), the batch/cursor loop (`run_forever`), and the
  scheduled-link resolution (`_resolve_targets_and_due_scheduled`).
* `backend/apps/api_gateway/routers/sync_api.py` — the conflict
  signature (`_conflict_signature`) and the resolution workflow
  (`_resolve_conflict_and_replicate`).
* `backend/apps/core/snowflake.py` — the identifier generator.
* `backend/apps/core/transaction.py` — the transaction retry wrapper.

Python `dict` snapshots are modelled as association lists
(`List (String × Value)`) compared with a key-based (order-independent)
equality, mirroring Python dict equality.  Machine-level bit operations
of the snowflake generator are translated with explicit `% 2 ^ w`
arithmetic; the bitwise OR of the three disjoint snowflake fields is
written as addition, which is exact because the worker id is bounded by
1023 (enforced by the constructor) and the sequence by 4095 (it is
reduced `% 4096`).
-/

namespace CampusSync

/-! ### Vector clocks (`_parse_vclock`, `_vclock_dominates`, `_vclock_concurrent`) -/

/-- A vector clock normalized to its two components, as produced by
`_parse_vclock`: component `N` is bumped by the MariaDB edge, `S` by the
Postgres edge.  Components are Python ints, hence `Int`. -/
structure VClock where
  N : Int
  S : Int
deriving DecidableEq, Repr

/-- Model of `_vclock_dominates(a, b)`: every component of `a` is at least
the corresponding component of `b`, and at least one is strictly greater. -/
def vclock_dominates (a b : VClock) : Bool :=
  (decide (a.N ≥ b.N) && decide (a.S ≥ b.S)) && (decide (a.N > b.N) || decide (a.S > b.S))

/-- Model of `_vclock_concurrent(a, b)`: `a ≠ b` and neither dominates. -/
def vclock_concurrent (a b : VClock) : Bool :=
  if a = b then false
  else !vclock_dominates a b && !vclock_dominates b a

/-! ### Row snapshots as association lists -/

/-- A JSON-ish value stored in a row snapshot.  A `v_clock` field whose
JSON text parses to an `{"N": _, "S": _}` object is represented in its
parsed, normalized form `vClock c`; strings that are not vector clocks
stay `vStr`. -/
inductive Value where
  | vNull
  | vInt (n : Int)
  | vStr (s : String)
  | vBool (b : Bool)
  | vClock (c : VClock)
deriving DecidableEq, Repr

/-- A row snapshot: a Python dict, modelled as an association list. -/
abbrev Dict : Type := List (String × Value)

/-- Python `d.get(k)`. -/
def dict_get (d : Dict) (k : String) : Option Value :=
  (List.find? (fun kv => kv.1 == k) d).map (fun kv => kv.2)

/-- Python dict equality: same key set and equal values under lookup
(association lists are compared order-independently, as Python dicts are). -/
def dict_beq (a b : Dict) : Bool :=
  List.all a (fun kv => dict_get b kv.1 == some kv.2) &&
  List.all b (fun kv => dict_get a kv.1 == some kv.2)

/-- Model of `_parse_vclock` applied to the value stored under `"v_clock"`:
a parseable clock object yields its components, everything else (absent
field, null, plain string, ...) yields the zero clock. -/
def parse_vclock : Option Value → VClock
  | some (Value.vClock c) => c
  | _ => { N := 0, S := 0 }

/-- Model of `_parse_vclock_maybe` from `sync_api.py`: `none` when the
value is absent or not a clock object. -/
def parse_vclock_maybe : Option Value → Option VClock
  | some (Value.vClock c) => some c
  | _ => none

/-- Model of `_strip_non_semantic_fields`: drop `updated_at`, `created_at`
and `sync_version` before comparing the before/after snapshots. -/
def strip_non_semantic_fields (d : Dict) : Dict :=
  List.filter (fun kv => !(["updated_at", "created_at", "sync_version"].contains kv.1)) d

/-! ### Change events and the per-target replication decision -/

/-- Operation of a change-log event. -/
inductive Operation where
  | INSERT
  | UPDATE
  | DELETE
deriving DecidableEq, Repr

/-- The vector-clock component owned by an origin database
(`EDGE_ORIGINS`: mariadb owns `N`, postgres owns `S`). -/
inductive ReplicaKey where
  | N
  | S
deriving DecidableEq, Repr

/-- Read one component of a clock, as `v_clock.get(origin_key, 0)`. -/
def vc_get (c : VClock) : ReplicaKey → Int
  | ReplicaKey.N => c.N
  | ReplicaKey.S => c.S

/-- Bump one component of a clock by one, as the smart-fix does with
`fixed[origin_key] = int(fixed.get(origin_key, 0) or 0) + 1`. -/
def vc_bump (c : VClock) : ReplicaKey → VClock
  | ReplicaKey.N => { c with N := c.N + 1 }
  | ReplicaKey.S => { c with S := c.S + 1 }

/-- A structured `sync_log` row (`EdgeLogRow`).  A snapshot that is not a
structured dict (null, unparsed text, a list, ...) is modelled as `none`,
matching the `isinstance(..., dict)` guards in `_process_edge_row`. -/
structure EdgeRow where
  log_id : Nat
  table_name : String
  data_id : Int
  operation : Operation
  old_data : Option Dict
  new_data : Option Dict
deriving DecidableEq, Repr

/-- The tables replicated by the worker (`TRACKED_TABLES`). -/
def TRACKED_TABLES : List String :=
  ["users", "user_profiles", "items", "item_images", "transactions", "messages", "favorites"]

/-- The snapshot an event replicates: `new_data` for INSERT/UPDATE,
`old_data` for DELETE. -/
def source_payload_of (row : EdgeRow) : Option Dict :=
  match row.operation with
  | Operation.DELETE => row.old_data
  | _ => row.new_data

/-- Model of the `needs_fix` computation in `_process_edge_row` (smart-fix
detection): with both snapshots structured, fix iff the parsed clocks are
equal while the stripped snapshots differ; otherwise, for an INSERT, fix
iff the origin component of the source clock is not strictly positive. -/
def needs_fix (op : Operation) (old_data new_data : Option Dict) (v : VClock)
    (origin_key : ReplicaKey) : Bool :=
  match old_data, new_data with
  | some od, some nd =>
      parse_vclock (dict_get od "v_clock") == parse_vclock (dict_get nd "v_clock") &&
      !dict_beq (strip_non_semantic_fields od) (strip_non_semantic_fields nd)
  | _, _ =>
      if op = Operation.INSERT then decide (vc_get v origin_key ≤ 0) else false

/-- The source clock actually used for comparison after the smart-fix
step of `_process_edge_row`: bumped on the origin component when the
operation is INSERT or UPDATE and `needs_fix` holds, unchanged otherwise. -/
def smart_fix_clock (op : Operation) (old_data new_data : Option Dict) (v : VClock)
    (origin_key : ReplicaKey) : VClock :=
  if (op = Operation.INSERT ∨ op = Operation.UPDATE) ∧
      needs_fix op old_data new_data v origin_key = true then
    vc_bump v origin_key
  else v

/-- Outcome of the vector-clock comparison for one target inside
`_process_edge_row`. -/
inductive TargetAction where
  | applyDelete
  | upsert (payload : Dict)
  | skipStale
  | conflict (reason : String) (source_v target_v : VClock)
  | noop
deriving DecidableEq, Repr

/-- Model of the per-target decision of `_process_edge_row` (lines
829-896): compare the source clock `v` with the clock of the target's
current row and overwrite, skip, or record a conflict. -/
def decide_target_action (op : Operation) (v : VClock) (payload : Dict)
    (current : Option Dict) : TargetAction :=
  let current_v := parse_vclock (dict_get (current.getD []) "v_clock")
  match op with
  | Operation.DELETE =>
      if current.isNone || vclock_dominates v current_v || v == current_v then
        TargetAction.applyDelete
      else if vclock_concurrent v current_v then
        TargetAction.conflict "vector_clock_conflict_delete" v current_v
      else
        TargetAction.noop
  | _ =>
      if current.isNone || vclock_dominates v current_v || v == current_v then
        TargetAction.upsert payload
      else if vclock_dominates current_v v then
        TargetAction.skipStale
      else
        TargetAction.conflict "vector_clock_conflict" v current_v

/-! ### The idempotent upsert (`_normalize_payload_for_target`, `_upsert_row`) -/

/-- Model of `_normalize_payload_for_target`: on a Postgres target,
integer values `0`/`1` under keys starting with `is_` become booleans. -/
def normalize_payload_for_target (target_db : String) (payload : Dict) : Dict :=
  if target_db ≠ "postgres" then payload
  else
    List.map
      (fun kv =>
        if kv.1.startsWith "is_" && (kv.2 == Value.vInt 0 || kv.2 == Value.vInt 1) then
          (kv.1, Value.vBool (kv.2 == Value.vInt 1))
        else kv)
      payload

/-- A SQL table: rows keyed by their primary-key value. -/
abbrev SqlTable : Type := List (Value × Dict)

/-- Set one column of a row, as one `col = VALUES(col)` / `col =
EXCLUDED.col` assignment does: update every entry under that key, or
append the column when absent. -/
def dict_set (d : Dict) (k : String) (v : Value) : Dict :=
  if (List.find? (fun kv => kv.1 == k) d).isSome then
    List.map (fun kv => if kv.1 == k then (k, v) else kv) d
  else d ++ [(k, v)]

/-- Apply every column assignment of `p` to the row `base` (the UPDATE
arm of the upsert). -/
def dict_merge (base : Dict) (p : Dict) : Dict :=
  List.foldl (fun acc kv => dict_set acc kv.1 kv.2) base p

/-- Model of `_upsert_row`: normalize the payload for the target, require
a primary key `id`, then INSERT the payload as a new row or, on a
duplicate key, UPDATE every non-`id` column of the existing row from the
payload. -/
def upsert_row (target_db : String) (t : SqlTable) (payload : Dict) :
    Except String SqlTable :=
  let p := normalize_payload_for_target target_db payload
  match dict_get p "id" with
  | none => Except.error "payload missing id"
  | some idv =>
      if (List.find? (fun r => r.1 == idv) t).isSome then
        Except.ok
          (List.map
            (fun r =>
              if r.1 == idv then
                (r.1, dict_merge r.2 (List.filter (fun kv => kv.1 != "id") p))
              else r)
            t)
      else Except.ok (t ++ [(idv, p)])

/-- Effect of one target action on the target's current row for that
record id: an upsert merges the payload over the row, a delete removes
it, and a skip / conflict / stale no-op leaves it untouched. -/
def apply_target_action (current : Option Dict) : TargetAction → Option Dict
  | TargetAction.applyDelete => none
  | TargetAction.upsert p => some (dict_merge (current.getD []) p)
  | TargetAction.skipStale => current
  | TargetAction.conflict _ _ _ => current
  | TargetAction.noop => current

/-! ### Processing one change event (`_process_edge_row`) -/

/-- Observable outcome of `_process_edge_row` on one event: whether it
reported success, whether the origin log entry was marked processed,
the smart-fix write to the origin (if any), which targets had their
current row read, and the per-target action taken. -/
structure ProcessResult where
  ok : Bool
  marked_processed : Bool
  smart_fix_write : Option VClock
  target_reads : List String
  target_actions : List (String × TargetAction)
deriving DecidableEq, Repr

/-- Model of `_process_edge_row` (pure projection: the exception-repair
branches for cross-database constraint violations are outside this
model).  Untracked tables and non-dict snapshots are marked processed
with no target activity at all; otherwise the smart-fix runs and every
target other than the origin gets a vector-clock decision against its
current row (`current_of`). -/
def process_edge_row (origin_db : String) (origin_key : ReplicaKey) (row : EdgeRow)
    (targets : List String) (current_of : String → Option Dict) : ProcessResult :=
  if !(TRACKED_TABLES.contains row.table_name) then
    { ok := true, marked_processed := true, smart_fix_write := none,
      target_reads := [], target_actions := [] }
  else
    match source_payload_of row with
    | none =>
        { ok := true, marked_processed := true, smart_fix_write := none,
          target_reads := [], target_actions := [] }
    | some payload =>
        let v := parse_vclock (dict_get payload "v_clock")
        let fix :=
          (row.operation = Operation.INSERT ∨ row.operation = Operation.UPDATE) ∧
            needs_fix row.operation row.old_data row.new_data v origin_key = true
        let v2 := smart_fix_clock row.operation row.old_data row.new_data v origin_key
        let payload2 := if fix then dict_set payload "v_clock" (Value.vClock v2) else payload
        let eligible := List.filter (fun t => t != origin_db) targets
        { ok := true,
          marked_processed := true,
          smart_fix_write := if fix then some v2 else none,
          target_reads := eligible,
          target_actions :=
            List.map (fun t => (t, decide_target_action row.operation v2 payload2 (current_of t)))
              eligible }

/-! ### Batch processing and the persisted cursor (`run_forever`, `_store_cursor`)

One round of `run_forever` for one origin fetches unprocessed log rows
with `log_id` greater than the stored cursor, ordered ascending, and
processes them in order; `max_committed` starts at the stored cursor,
advances over each successfully processed row, stops at the first
failure, and is then persisted.  Events are abstracted to their
`log_id`s and the success of `_process_edge_row` to an oracle `ok`. -/

/-- The processing loop of one round: returns the persisted cursor value
and the list of log ids marked processed, in processing order. -/
def run_batch (ok : Nat → Bool) (max_committed : Nat) : List Nat → Nat × List Nat
  | [] => (max_committed, [])
  | id :: rest =>
      if ok id then
        let r := run_batch ok (max max_committed id) rest
        (r.1, id :: r.2)
      else (max_committed, [])

/-- Iterated worker rounds on one origin: each round runs `run_batch`
from the persisted cursor with that round's fetched batch and oracle. -/
def run_rounds (cursor : Nat) : List (List Nat × (Nat → Bool)) → Nat
  | [] => cursor
  | round :: rest => run_rounds (run_batch round.2 cursor round.1).1 rest

/-! ### Replication topology and the scheduler (`_resolve_targets_and_due_scheduled`) -/

/-- A `sync_configs` row (`ReplicationLink`).  Timestamps are integer
seconds; `interval_seconds` is nullable in the database. -/
structure SyncConfigRow where
  id : Nat
  source : String
  target : String
  mode : String
  interval_seconds : Option Nat
  enabled : Bool
  last_run_at : Option Int
deriving DecidableEq, Repr

/-- The rows the scheduler query keeps: enabled, matching source, and a
target different from the origin. -/
def cfg_eligible (origin : String) (c : SyncConfigRow) : Bool :=
  c.enabled && c.source == origin && c.target != origin

/-- Python `int(cfg.interval_seconds or 300)`: both a missing and a zero
interval fall back to 300 seconds. -/
def effective_interval : Option Nat → Nat
  | none => 300
  | some 0 => 300
  | some n => n

/-- A scheduled link is due when it never ran or when at least
`interval` seconds have passed since `last_run_at`. -/
def scheduled_due (now : Int) (last_run_at : Option Int) (interval : Nat) : Bool :=
  match last_run_at with
  | none => true
  | some last => decide (now - last ≥ (interval : Int))

/-- Accumulate a target into the target set (Python uses a `set`; the
model deduplicates and drops the final `sorted`, which claims never
depend on). -/
def add_target (l : List String) (t : String) : List String :=
  if l.contains t then l else l ++ [t]

/-- One iteration of the config loop in
`_resolve_targets_and_due_scheduled`: realtime links always contribute
their target; scheduled links contribute — and have their id collected
for the `last_run_at` touch — when forced by a manual trigger or due by
interval; other modes are ignored. -/
def resolve_step (now : Int) (force_scheduled : Bool)
    (acc : List String × List Nat) (c : SyncConfigRow) : List String × List Nat :=
  if c.mode == "realtime" then (add_target acc.1 c.target, acc.2)
  else if c.mode != "scheduled" then acc
  else if force_scheduled then (add_target acc.1 c.target, acc.2 ++ [c.id])
  else if scheduled_due now c.last_run_at (effective_interval c.interval_seconds) then
    (add_target acc.1 c.target, acc.2 ++ [c.id])
  else acc

/-- Model of `_resolve_targets_and_due_scheduled`. -/
def resolve_targets_and_due_scheduled (origin : String) (cfgs : List SyncConfigRow)
    (now : Int) (force_scheduled : Bool) : List String × List Nat :=
  List.foldl (resolve_step now force_scheduled) ([], [])
    (List.filter (cfg_eligible origin) cfgs)

/-- Model of `_touch_scheduled_last_run`: set `last_run_at` to now for
every config whose id was collected this round. -/
def touch_scheduled_last_run (cfgs : List SyncConfigRow) (ids : List Nat) (now : Int) :
    List SyncConfigRow :=
  List.map (fun c => if ids.contains c.id then { c with last_run_at := some now } else c) cfgs

/-- One origin's round of `run_forever`, projected onto the
`sync_configs` state: resolve targets, skip the origin when no target is
due, and otherwise touch the due scheduled links — both when the fetched
batch was empty and after processing a non-empty batch. -/
def worker_round_configs (origin : String) (cfgs : List SyncConfigRow) (now : Int)
    (force_scheduled : Bool) (has_rows : Bool) : List SyncConfigRow :=
  let r := resolve_targets_and_due_scheduled origin cfgs now force_scheduled
  if r.1.isEmpty then cfgs
  else if !has_rows then touch_scheduled_last_run cfgs r.2 now
  else touch_scheduled_last_run cfgs r.2 now

/-! ### Conflict signature and resolution (`sync_api.py`) -/

/-- The payload stored on a `ConflictRecord`, restricted to the fields
`_conflict_signature` reads. -/
structure ConflictPayload where
  reason : Option String
  source_new : Option Dict
  source_old : Option Dict
  target_current : Option Dict
deriving DecidableEq, Repr

/-- Python `a or d` on an optional dict: `a` unless it is missing or
empty (both falsy). -/
def dict_or_else (a : Option Dict) (d : Dict) : Dict :=
  match a with
  | some x => if x == [] then d else x
  | none => d

/-- The source-side snapshot chosen by `_conflict_signature`:
`payload.get("source_new") or payload.get("source_old") or unit-dict`. -/
def conflict_source_state (p : ConflictPayload) : Dict :=
  dict_or_else p.source_new (dict_or_else p.source_old [])

/-- The target-side snapshot chosen by `_conflict_signature`. -/
def conflict_target_state (p : ConflictPayload) : Dict :=
  dict_or_else p.target_current []

/-- Python `str(raw_payload.get("reason") or "unknown")`. -/
def conflict_reason (p : ConflictPayload) : String :=
  match p.reason with
  | none => "unknown"
  | some r => if r == "" then "unknown" else r

/-- Strict lexicographic comparison of character lists (the order Python
string comparison uses). -/
def char_list_lt : List Char → List Char → Bool
  | [], [] => false
  | [], _ :: _ => true
  | _ :: _, [] => false
  | a :: as, b :: bs => a.val < b.val || (a = b && char_list_lt as bs)

/-- Python string `<`. -/
def str_lt (a b : String) : Bool :=
  char_list_lt a.data b.data

/-- The `_vc_key` serialization: the empty string for a missing clock,
otherwise `json.dumps({"N": n, "S": s}, sort_keys=True)`. -/
def vc_key : Option VClock → String
  | none => ""
  | some c => "\x7b\"N\": " ++ toString c.N ++ ", \"S\": " ++ toString c.S ++ "\x7d"

/-- The tail of `_conflict_signature` once the two clock snapshots are
extracted: order the two serialized clocks (`lo, hi = sorted([a, b])`)
and join all parts with `|`. -/
def signature_from_sides (table_name : String) (record_id : Int) (reason : String)
    (svc tvc : Option VClock) : String :=
  let a := vc_key svc
  let b := vc_key tvc
  let lo := if str_lt b a then b else a
  let hi := if str_lt b a then a else b
  table_name ++ "|" ++ toString record_id ++ "|" ++ reason ++ "|" ++ lo ++ "|" ++ hi

/-- Model of `_conflict_signature(table_name, record_id, raw_payload)`. -/
def conflict_signature (table_name : String) (record_id : Int) (p : ConflictPayload) :
    String :=
  signature_from_sides table_name record_id (conflict_reason p)
    (parse_vclock_maybe (dict_get (conflict_source_state p) "v_clock"))
    (parse_vclock_maybe (dict_get (conflict_target_state p) "v_clock"))

/-- A `conflict_records` row as seen by the resolution workflow, within
one `(table_name, record_id)` group. -/
structure ConflictRow where
  id : Nat
  resolved : Bool
  payload : ConflictPayload
deriving DecidableEq, Repr

/-- Model of the conflict-store part of `_resolve_conflict_and_replicate`
(lines 765-934, replication omitted): reject a missing or already
resolved conflict, reject when another resolved row of the group shares
the signature, and otherwise mark resolved the chosen conflict together
with every still-pending row of the same signature, leaving
different-signature rows untouched. -/
def resolve_conflict_group (table_name : String) (record_id : Int)
    (rows : List ConflictRow) (conflict_id : Nat) : Except String (List ConflictRow) :=
  match List.find? (fun r => r.id == conflict_id) rows with
  | none => Except.error "conflict not found"
  | some c =>
      if c.resolved then Except.error "conflict already resolved"
      else
        let sig := conflict_signature table_name record_id c.payload
        if List.any rows
            (fun r =>
              r.id != conflict_id && r.resolved &&
                conflict_signature table_name record_id r.payload == sig) then
          Except.error "conflict event already adjudicated"
        else
          Except.ok
            (List.map
              (fun r =>
                if r.id == conflict_id then { r with resolved := true }
                else if !r.resolved &&
                    conflict_signature table_name record_id r.payload == sig then
                  { r with resolved := true }
                else r)
              rows)

/-! ### Identifier generator (`snowflake.py`) -/

/-- Mutable state of a `Snowflake` instance: `_last_ms` starts at `-1`,
`_seq` at `0`. -/
structure SnowflakeState where
  last_ms : Int
  seq : Nat
deriving DecidableEq, Repr

/-- The initial generator state. -/
def snowflake_init : SnowflakeState :=
  { last_ms := -1, seq := 0 }

/-- The returned identifier: `((now_ms - epoch) & (2^41 - 1)) << 22 |
(worker_id << 12) | seq`.  The mask is written `% 2 ^ 41` (on `Int` this
matches Python `&` with an all-ones mask) and the OR of the disjoint
fields as addition, exact for `worker_id ≤ 1023` and `seq < 4096`. -/
def snowflake_encode (epoch_ms : Nat) (worker_id : Nat) (ms : Int) (seq : Nat) : Nat :=
  ((ms - (epoch_ms : Int)) % (2 ^ 41 : Int)).toNat * 2 ^ 22 + worker_id * 2 ^ 12 + seq

/-- One `next_id` call.  `now` is the millisecond clock reading; `wait`
is the reading the spin-wait loop exits with when the 12-bit sequence
wraps (the loop guarantees `wait > last_ms`).  Returns the new state and
the emitted identifier. -/
def snowflake_step (epoch_ms worker_id : Nat) (st : SnowflakeState) (now wait : Nat) :
    SnowflakeState × Nat :=
  let now1 : Int := if (now : Int) < st.last_ms then st.last_ms else (now : Int)
  if now1 = st.last_ms then
    let seq2 := (st.seq + 1) % 4096
    if seq2 = 0 then
      ({ last_ms := (wait : Int), seq := 0 },
        snowflake_encode epoch_ms worker_id (wait : Int) 0)
    else
      ({ last_ms := st.last_ms, seq := seq2 },
        snowflake_encode epoch_ms worker_id st.last_ms seq2)
  else
    ({ last_ms := now1, seq := 0 }, snowflake_encode epoch_ms worker_id now1 0)

/-- A trace of `next_id` calls, each with its clock reading and the
reading its spin-wait (if entered) would end with. -/
def snowflake_run (epoch_ms worker_id : Nat) (st : SnowflakeState) :
    List (Nat × Nat) → List Nat
  | [] => []
  | (now, wait) :: rest =>
      let r := snowflake_step epoch_ms worker_id st now wait
      r.2 :: snowflake_run epoch_ms worker_id r.1 rest

/-- Validity of a trace: every clock reading represents a millisecond in
the 41-bit window starting at the epoch, and whenever a step enters the
spin-wait (sequence wrap within one millisecond) the reading it exits
with is past the recorded millisecond and still in the window — which is
what the loop's `now_ms > self._last_ms` exit condition guarantees. -/
def snowflake_valid (epoch_ms worker_id : Nat) (st : SnowflakeState) :
    List (Nat × Nat) → Bool
  | [] => true
  | (now, wait) :: rest =>
      decide ((epoch_ms : Int) ≤ (now : Int)) &&
      decide ((now : Int) < (epoch_ms : Int) + 2 ^ 41) &&
      (if (¬ st.last_ms < (now : Int)) ∧ (st.seq + 1) % 4096 = 0 then
        decide (st.last_ms < (wait : Int)) &&
          decide ((wait : Int) < (epoch_ms : Int) + 2 ^ 41)
      else true) &&
      snowflake_valid epoch_ms worker_id (snowflake_step epoch_ms worker_id st now wait).1 rest

/-! ### Transaction retry wrapper (`transaction.py`) -/

/-- An exception as `is_retryable_error` sees it: whether it is a
`DBAPIError`/`OperationalError`, and its message. -/
structure PyError where
  is_dbapi_error : Bool
  message : String
deriving DecidableEq, Repr

/-- Lower-casing a string character-wise (Python `str.lower` on the
ASCII error messages the patterns match against). -/
def lower_str (s : String) : String :=
  String.mk (s.data.map Char.toLower)

/-- Python `pattern in error_msg`: substring containment. -/
def str_contains (s pat : String) : Bool :=
  s.data.tails.any (fun t => pat.data.isPrefixOf t)

/-- The retryable message patterns of `is_retryable_error`. -/
def RETRYABLE_PATTERNS : List String :=
  ["deadlock", "lock wait timeout", "could not serialize", "database is locked",
    "serialization failure"]

/-- Model of `is_retryable_error`: a database error whose lower-cased
message contains one of the deadlock / lock-wait-timeout /
serialization-failure patterns. -/
def is_retryable_error (e : PyError) : Bool :=
  e.is_dbapi_error && RETRYABLE_PATTERNS.any (fun p => str_contains (lower_str e.message) p)

/-- `TransactionConfig.MAX_RETRIES`. -/
def MAX_RETRIES : Nat := 3

/-- `TransactionConfig.RETRY_DELAY` (seconds, exact rational in place of
the Python float). -/
def RETRY_DELAY : ℚ := 1 / 10

/-- `TransactionConfig.RETRY_BACKOFF`. -/
def RETRY_BACKOFF : ℚ := 2

/-- Result of the wrapped call: the function's value, a propagated
exception, or the unreachable fall-through `RuntimeError`. -/
inductive TxOutcome (α : Type) where
  | success (a : α)
  | raised (e : PyError)
  | runtimeError
deriving DecidableEq

/-- Observable trace of `with_transaction`'s retry loop: the final
outcome, the argument of each `time.sleep`, and how many times the
session was rolled back. -/
structure TxTrace (α : Type) where
  outcome : TxOutcome α
  sleeps : List ℚ
  rollbacks : Nat
deriving DecidableEq

/-- The `while attempt < max_retries` loop of `with_transaction`,
written on the fuel `max_retries - attempt`; `results n` is the outcome
of the `n`-th execution of the wrapped function.  A failure rolls back;
a retryable failure with `attempt < max_retries - 1` sleeps the current
delay, multiplies it by the backoff, and retries; any other failure is
re-raised at once. -/
def tx_loop (results : Nat → Except PyError α) (attempt : Nat) (fuel : Nat) (delay : ℚ) :
    TxTrace α :=
  match fuel with
  | 0 => { outcome := TxOutcome.runtimeError, sleeps := [], rollbacks := 0 }
  | fuel2 + 1 =>
      match results attempt with
      | Except.ok a => { outcome := TxOutcome.success a, sleeps := [], rollbacks := 0 }
      | Except.error e =>
          if is_retryable_error e && decide (0 < fuel2) then
            let r := tx_loop results (attempt + 1) fuel2 (delay * RETRY_BACKOFF)
            { outcome := r.outcome, sleeps := delay :: r.sleeps, rollbacks := r.rollbacks + 1 }
          else
            { outcome := TxOutcome.raised e, sleeps := [], rollbacks := 1 }

/-- Model of the `with_transaction` wrapper body for a given
`max_retries` bound. -/
def with_transaction_run (results : Nat → Except PyError α) (max_retries : Nat) :
    TxTrace α :=
  tx_loop results 0 max_retries RETRY_DELAY

/-! ## Helper lemmas -/

theorem vclock_dominates_iff (a b : VClock) :
    vclock_dominates a b = true ↔ (a.N ≥ b.N ∧ a.S ≥ b.S) ∧ (a.N > b.N ∨ a.S > b.S) := by
  simp [vclock_dominates]

theorem vclock_dominates_irrefl (a : VClock) : vclock_dominates a a = false := by
  simp [vclock_dominates]

theorem vclock_dominates_asymm (a b : VClock) (h : vclock_dominates a b = true) :
    vclock_dominates b a = false := by
  rw [vclock_dominates_iff] at h
  by_cases h2 : vclock_dominates b a = true
  · rw [vclock_dominates_iff] at h2
    omega
  · simpa using h2

theorem vclock_dominates_ne (a b : VClock) (h : vclock_dominates a b = true) : a ≠ b := by
  rw [vclock_dominates_iff] at h
  intro he
  subst he
  omega

theorem vclock_concurrent_iff (a b : VClock) :
    vclock_concurrent a b = true ↔
      a ≠ b ∧ vclock_dominates a b = false ∧ vclock_dominates b a = false := by
  unfold vclock_concurrent
  by_cases h : a = b
  · simp [h]
  · simp [h]

theorem run_batch_cursor_le (ok : Nat → Bool) :
    ∀ (rows : List Nat) (c : Nat), c ≤ (run_batch ok c rows).1 := by
  intro rows
  induction rows with
  | nil => intro c; simp [run_batch]
  | cons id rest ih =>
      intro c
      by_cases h : ok id
      · simpa [run_batch, h] using le_trans (le_max_left c id) (ih (max c id))
      · simp [run_batch, h]

theorem run_rounds_le :
    ∀ (rounds : List (List Nat × (Nat → Bool))) (c : Nat), c ≤ run_rounds c rounds := by
  intro rounds
  induction rounds with
  | nil => intro c; simp [run_rounds]
  | cons round rest ih =>
      intro c
      have h1 : c ≤ (run_batch round.2 c round.1).1 := run_batch_cursor_le _ _ _
      have h2 := ih (run_batch round.2 c round.1).1
      calc c ≤ (run_batch round.2 c round.1).1 := h1
        _ ≤ run_rounds (run_batch round.2 c round.1).1 rest := h2
        _ = run_rounds c (round :: rest) := by rfl

theorem getLast_getD_cons (a c : Nat) (l : List Nat) :
    ((a :: l).getLast?).getD c = (l.getLast?).getD a := by
  cases l with
  | nil => rfl
  | cons b bs =>
      rw [List.getLast?_cons_cons]
      cases h : (b :: bs).getLast? with
      | none => simp [List.getLast?_eq_none_iff] at h
      | some x => simp [h]

theorem run_batch_spec (ok : Nat → Bool) :
    ∀ (rows : List Nat) (c : Nat),
      List.Chain' (fun a b => a < b) rows → (∀ r ∈ rows, c < r) →
      (run_batch ok c rows).2 = rows.takeWhile ok ∧
      (run_batch ok c rows).1 = ((rows.takeWhile ok).getLast?).getD c ∧
      ∀ f, (rows.dropWhile ok).head? = some f → (run_batch ok c rows).1 < f := by
  intro rows
  induction rows with
  | nil =>
      intro c _ _
      refine ⟨rfl, rfl, ?_⟩
      intro f hf
      simp [List.dropWhile] at hf
  | cons id rest ih =>
      intro c hchain hgt
      have hpw := List.chain'_iff_pairwise.mp hchain
      have hrest_gt : ∀ r ∈ rest, id < r := fun r hr => (List.pairwise_cons.mp hpw).1 r hr
      have hchain_rest : List.Chain' (fun a b => a < b) rest := hchain.tail
      by_cases h : ok id
      · have hmax : max c id = id := by
          have := hgt id (List.mem_cons_self id rest)
          omega
        have ih2 := ih id hchain_rest hrest_gt
        refine ⟨?_, ?_, ?_⟩
        · simp [run_batch, h, hmax, List.takeWhile_cons_of_pos h, ih2.1]
        · simp [run_batch, h, hmax, List.takeWhile_cons_of_pos h, ih2.2.1,
            getLast_getD_cons]
        · intro f hf
          rw [List.dropWhile_cons_of_pos h] at hf
          simpa [run_batch, h, hmax] using ih2.2.2 f hf
      · refine ⟨?_, ?_, ?_⟩
        · simp [run_batch, h, List.takeWhile_cons_of_neg h]
        · simp [run_batch, h, List.takeWhile_cons_of_neg h]
        · intro f hf
          rw [List.dropWhile_cons_of_neg h] at hf
          have hf2 : f = id := by
            simp at hf
            omega
          subst hf2
          simpa [run_batch, h] using hgt f (List.mem_cons_self f rest)

/-! ## Claim theorems -/

/-- Claim C3: for all vector clocks `a` and `b`, `dominates(a, a)` is
false, `concurrent` is symmetric, and domination excludes concurrency. -/
theorem claim_C3_vclock_algebra (a b : VClock) :
    vclock_dominates a a = false ∧
    vclock_concurrent a b = vclock_concurrent b a ∧
    (vclock_dominates a b = true → vclock_concurrent a b = false) := by
  refine ⟨vclock_dominates_irrefl a, ?_, ?_⟩
  · by_cases h : a = b
    · subst h; rfl
    · have h2 : ¬ b = a := fun e => h e.symm
      simp [vclock_concurrent, h, h2, Bool.and_comm]
  · intro hd
    by_cases h : a = b
    · subst h
      rw [vclock_dominates_irrefl] at hd
      exact absurd hd (by simp)
    · simp [vclock_concurrent, h, hd]

/-- Witness for C3 at concrete clocks, discharging the hypothesis of the
third conjunct. -/
theorem claim_C3_vclock_algebra_witness :
    vclock_concurrent { N := 1, S := 0 } { N := 0, S := 1 } =
      vclock_concurrent { N := 0, S := 1 } { N := 1, S := 0 } ∧
    vclock_concurrent { N := 1, S := 0 } { N := 0, S := 0 } = false :=
  ⟨(claim_C3_vclock_algebra { N := 1, S := 0 } { N := 0, S := 1 }).2.1,
    (claim_C3_vclock_algebra { N := 1, S := 0 } { N := 0, S := 0 }).2.2 (by decide)⟩

/-- Claim C10: an event for an untracked table, or whose relevant
snapshot is not a structured dict, is marked processed and reported as a
success with no target read, no target action and no smart-fix write. -/
theorem claim_C10_untracked_event_noop (origin_db : String) (origin_key : ReplicaKey)
    (row : EdgeRow) (targets : List String) (current_of : String → Option Dict)
    (h : TRACKED_TABLES.contains row.table_name = false ∨ source_payload_of row = none) :
    process_edge_row origin_db origin_key row targets current_of =
      { ok := true, marked_processed := true, smart_fix_write := none,
        target_reads := [], target_actions := [] } := by
  rcases h with h | h
  · have h2 : row.table_name ∉ TRACKED_TABLES := by simpa using h
    simp [process_edge_row, h2]
  · by_cases ht : TRACKED_TABLES.contains row.table_name
    · simp [process_edge_row, ht, h]
    · have h2 : row.table_name ∉ TRACKED_TABLES := by simpa using ht
      simp [process_edge_row, h2]

/-- Witness for C10: a concrete event on the untracked `carts` table. -/
theorem claim_C10_untracked_event_noop_witness :
    process_edge_row "mariadb" ReplicaKey.N
        { log_id := 7, table_name := "carts", data_id := 5,
          operation := Operation.INSERT, old_data := none,
          new_data := some [("id", Value.vInt 5)] }
        ["postgres", "mysql"] (fun _ => none) =
      { ok := true, marked_processed := true, smart_fix_write := none,
        target_reads := [], target_actions := [] } :=
  claim_C10_untracked_event_noop "mariadb" ReplicaKey.N
    { log_id := 7, table_name := "carts", data_id := 5,
      operation := Operation.INSERT, old_data := none,
      new_data := some [("id", Value.vInt 5)] }
    ["postgres", "mysql"] (fun _ => none) (Or.inl (by decide))

/-- Counterexample for C1 as stated: on concurrent clocks the recorded
conflict reasons are `vector_clock_conflict` and
`vector_clock_conflict_delete`, not `update_conflict` and
`delete_conflict`. -/
theorem claim_C1_counterexample :
    vclock_concurrent { N := 2, S := 0 } { N := 1, S := 1 } = true ∧
    decide_target_action Operation.UPDATE { N := 2, S := 0 } []
        (some [("v_clock", Value.vClock { N := 1, S := 1 })]) =
      TargetAction.conflict "vector_clock_conflict" { N := 2, S := 0 } { N := 1, S := 1 } ∧
    decide_target_action Operation.UPDATE { N := 2, S := 0 } []
        (some [("v_clock", Value.vClock { N := 1, S := 1 })]) ≠
      TargetAction.conflict "update_conflict" { N := 2, S := 0 } { N := 1, S := 1 } ∧
    decide_target_action Operation.DELETE { N := 2, S := 0 } []
        (some [("v_clock", Value.vClock { N := 1, S := 1 })]) =
      TargetAction.conflict "vector_clock_conflict_delete" { N := 2, S := 0 }
        { N := 1, S := 1 } ∧
    decide_target_action Operation.DELETE { N := 2, S := 0 } []
        (some [("v_clock", Value.vClock { N := 1, S := 1 })]) ≠
      TargetAction.conflict "delete_conflict" { N := 2, S := 0 } { N := 1, S := 1 } := by
  decide

/-- Claim C1 (amended: the recorded conflict reasons are
`vector_clock_conflict` for INSERT/UPDATE and
`vector_clock_conflict_delete` for DELETE): the per-target decision
upserts when the target row is absent or the source clock dominates or
equals the target's, skips when the target's clock dominates, records a
conflict and leaves the target row unchanged when the clocks are
concurrent, and applies a DELETE exactly when the target row is absent
or the source clock dominates or equals the target's. -/
theorem claim_C1_replication_decision (op : Operation) (v : VClock) (payload : Dict)
    (current : Option Dict) (current_v : VClock)
    (hcv : current_v = parse_vclock (dict_get (current.getD []) "v_clock")) :
    (op ≠ Operation.DELETE →
      (current = none ∨ vclock_dominates v current_v = true ∨ v = current_v) →
      decide_target_action op v payload current = TargetAction.upsert payload) ∧
    (op ≠ Operation.DELETE → current ≠ none → vclock_dominates current_v v = true →
      decide_target_action op v payload current = TargetAction.skipStale ∧
      apply_target_action current (decide_target_action op v payload current) = current) ∧
    (op ≠ Operation.DELETE → current ≠ none → vclock_concurrent v current_v = true →
      decide_target_action op v payload current =
        TargetAction.conflict "vector_clock_conflict" v current_v ∧
      apply_target_action current (decide_target_action op v payload current) = current) ∧
    (op = Operation.DELETE →
      (decide_target_action op v payload current = TargetAction.applyDelete ↔
        (current = none ∨ vclock_dominates v current_v = true ∨ v = current_v))) ∧
    (op = Operation.DELETE → current ≠ none → vclock_concurrent v current_v = true →
      decide_target_action op v payload current =
        TargetAction.conflict "vector_clock_conflict_delete" v current_v ∧
      apply_target_action current (decide_target_action op v payload current) = current) := by
  subst hcv
  refine ⟨?_, ?_, ?_, ?_, ?_⟩
  · intro hop h
    have hc : (current.isNone || vclock_dominates v (parse_vclock (dict_get (current.getD []) "v_clock")) ||
        v == parse_vclock (dict_get (current.getD []) "v_clock")) = true := by
      rcases h with h | h | h
      · simp [h]
      · simp [h]
      · simp [h]
    cases op with
    | DELETE => exact absurd rfl hop
    | INSERT => simp [decide_target_action, hc]
    | UPDATE => simp [decide_target_action, hc]
  · intro hop hcur hdom
    have hnone : current.isNone = false := by
      cases current with
      | none => exact absurd rfl hcur
      | some _ => rfl
    have hd2 : vclock_dominates v (parse_vclock (dict_get (current.getD []) "v_clock")) = false :=
      vclock_dominates_asymm _ _ hdom
    have hne : ¬ v = parse_vclock (dict_get (current.getD []) "v_clock") :=
      fun he => vclock_dominates_ne _ _ hdom he.symm
    cases op with
    | DELETE => exact absurd rfl hop
    | INSERT => simp [decide_target_action, hnone, hd2, hne, hdom, apply_target_action]
    | UPDATE => simp [decide_target_action, hnone, hd2, hne, hdom, apply_target_action]
  · intro hop hcur hconc
    have hnone : current.isNone = false := by
      cases current with
      | none => exact absurd rfl hcur
      | some _ => rfl
    rw [vclock_concurrent_iff] at hconc
    cases op with
    | DELETE => exact absurd rfl hop
    | INSERT =>
        simp [decide_target_action, hnone, hconc.1, hconc.2.1, hconc.2.2, apply_target_action]
    | UPDATE =>
        simp [decide_target_action, hnone, hconc.1, hconc.2.1, hconc.2.2, apply_target_action]
  · intro hop
    subst hop
    constructor
    · intro h
      by_cases hc : (current.isNone || vclock_dominates v (parse_vclock (dict_get (current.getD []) "v_clock")) ||
          v == parse_vclock (dict_get (current.getD []) "v_clock")) = true
      · have := hc
        simp only [Bool.or_eq_true, beq_iff_eq, Option.isNone_iff_eq_none] at this
        tauto
      · exfalso
        rw [Bool.not_eq_true] at hc
        by_cases hcc : vclock_concurrent v (parse_vclock (dict_get (current.getD []) "v_clock")) = true
        · simp [decide_target_action, hc, hcc] at h
        · rw [Bool.not_eq_true] at hcc
          simp [decide_target_action, hc, hcc] at h
    · intro h
      have hc : (current.isNone || vclock_dominates v (parse_vclock (dict_get (current.getD []) "v_clock")) ||
          v == parse_vclock (dict_get (current.getD []) "v_clock")) = true := by
        rcases h with h | h | h
        · simp [h]
        · simp [h]
        · simp [h]
      simp [decide_target_action, hc]
  · intro hop hcur hconc
    subst hop
    have hnone : current.isNone = false := by
      cases current with
      | none => exact absurd rfl hcur
      | some _ => rfl
    have hconc2 := hconc
    rw [vclock_concurrent_iff] at hconc2
    simp [decide_target_action, hnone, hconc, hconc2.1, hconc2.2.1, apply_target_action]

/-- Witness for C1 at a concrete concurrent pair of clocks. -/
theorem claim_C1_replication_decision_witness :
    decide_target_action Operation.UPDATE { N := 2, S := 0 } [("id", Value.vInt 1)]
        (some [("v_clock", Value.vClock { N := 1, S := 1 })]) =
      TargetAction.conflict "vector_clock_conflict" { N := 2, S := 0 } { N := 1, S := 1 } ∧
    apply_target_action (some [("v_clock", Value.vClock { N := 1, S := 1 })])
        (decide_target_action Operation.UPDATE { N := 2, S := 0 } [("id", Value.vInt 1)]
          (some [("v_clock", Value.vClock { N := 1, S := 1 })])) =
      some [("v_clock", Value.vClock { N := 1, S := 1 })] :=
  (claim_C1_replication_decision Operation.UPDATE { N := 2, S := 0 } [("id", Value.vInt 1)]
      (some [("v_clock", Value.vClock { N := 1, S := 1 })]) { N := 1, S := 1 }
      (by decide)).2.2.1 (by decide) (by decide) (by decide)

/-- Counterexample for C5 as stated: an INSERT whose old and new
snapshots are both structured dicts with unequal vector clocks and whose
origin component is not strictly positive gets no bump, although the
claim's INSERT clause demands one. -/
theorem claim_C5_counterexample :
    vc_get { N := 0, S := 2 } ReplicaKey.N ≤ 0 ∧
    parse_vclock (dict_get [("v_clock", Value.vClock { N := 0, S := 2 })] "v_clock") =
      { N := 0, S := 2 } ∧
    smart_fix_clock Operation.INSERT (some [("v_clock", Value.vClock { N := 0, S := 1 })])
        (some [("v_clock", Value.vClock { N := 0, S := 2 })]) { N := 0, S := 2 }
        ReplicaKey.N = { N := 0, S := 2 } ∧
    ({ N := 0, S := 2 } : VClock) ≠ vc_bump { N := 0, S := 2 } ReplicaKey.N := by
  decide

/-- Claim C5 (amended: the INSERT clause applies when the old snapshot
is not a structured dict): the smart-fix bumps the origin's own
component by exactly one, leaving the other component unchanged, when an
INSERT/UPDATE has structured old and new snapshots with equal clocks but
a semantic difference, and when an INSERT without a structured old
snapshot has a non-positive origin component. -/
theorem claim_C5_self_healing (op : Operation) (old_data new_data : Option Dict)
    (v : VClock) (k : ReplicaKey) :
    ((op = Operation.INSERT ∨ op = Operation.UPDATE) →
      ∀ od nd, old_data = some od → new_data = some nd →
        parse_vclock (dict_get od "v_clock") = parse_vclock (dict_get nd "v_clock") →
        dict_beq (strip_non_semantic_fields od) (strip_non_semantic_fields nd) = false →
        smart_fix_clock op old_data new_data v k = vc_bump v k) ∧
    (op = Operation.INSERT → old_data = none → vc_get v k ≤ 0 →
      smart_fix_clock op old_data new_data v k = vc_bump v k) ∧
    vc_get (vc_bump v k) k = vc_get v k + 1 ∧
    (∀ k2, k2 ≠ k → vc_get (vc_bump v k) k2 = vc_get v k2) := by
  refine ⟨?_, ?_, ?_, ?_⟩
  · intro hop od nd ho hn hveq hdiff
    subst ho
    subst hn
    simp [smart_fix_clock, needs_fix, hveq, hdiff, hop]
  · intro h1 h2 h3
    subst h2
    subst h1
    simp [smart_fix_clock, needs_fix, h3]
  · cases k <;> simp [vc_get, vc_bump]
  · intro k2 hk
    cases k <;> cases k2 <;> simp_all [vc_get, vc_bump]

/-- Claim C2: the persisted cursor never decreases over any sequence of
rounds; within a round of ascending, after-cursor events the processed
events are exactly the longest successful prefix (so an event is only
marked once all earlier events of the batch are), in ascending order;
the stored cursor is the highest fully-processed sequence id (the prior
cursor when none succeeded) and stays below the first failing event. -/
theorem claim_C2_monotonic_cursor (cursor : Nat) (rounds : List (List Nat × (Nat → Bool)))
    (ok : Nat → Bool) (rows : List Nat)
    (hsorted : List.Chain' (fun a b => a < b) rows) (hgt : ∀ r ∈ rows, cursor < r) :
    cursor ≤ run_rounds cursor rounds ∧
    (run_batch ok cursor rows).2 = rows.takeWhile ok ∧
    List.Chain' (fun a b => a < b) (run_batch ok cursor rows).2 ∧
    (run_batch ok cursor rows).1 = ((rows.takeWhile ok).getLast?).getD cursor ∧
    ∀ f, (rows.dropWhile ok).head? = some f → (run_batch ok cursor rows).1 < f := by
  have hs := run_batch_spec ok rows cursor hsorted hgt
  refine ⟨run_rounds_le rounds cursor, hs.1, ?_, hs.2.1, hs.2.2⟩
  rw [hs.1]
  have hpw := List.chain'_iff_pairwise.mp hsorted
  have hsub : List.Sublist (rows.takeWhile ok) rows := (List.takeWhile_prefix ok).sublist
  exact List.chain'_iff_pairwise.mpr (hpw.sublist hsub)

/-- Witness for C2: a concrete batch where the third event fails. -/
theorem claim_C2_monotonic_cursor_witness :
    (run_batch (fun n => n != 3) 0 [1, 2, 3]).2 = [1, 2] ∧
    (run_batch (fun n => n != 3) 0 [1, 2, 3]).1 = 2 ∧
    (run_batch (fun n => n != 3) 0 [1, 2, 3]).1 < 3 := by
  have h := claim_C2_monotonic_cursor 0 [] (fun n => n != 3) [1, 2, 3]
    (by simp [List.chain'_cons]) (by decide)
  refine ⟨h.2.1.trans (by decide), (h.2.2.2.1).trans (by decide), h.2.2.2.2 3 (by decide)⟩

/-- Witness for C5: a concrete INSERT without old snapshot and with a
zero origin component is bumped. -/
theorem claim_C5_self_healing_witness :
    smart_fix_clock Operation.INSERT none (some [("id", Value.vInt 1)])
        { N := 0, S := 0 } ReplicaKey.N = vc_bump { N := 0, S := 0 } ReplicaKey.N :=
  (claim_C5_self_healing Operation.INSERT none (some [("id", Value.vInt 1)])
      { N := 0, S := 0 } ReplicaKey.N).2.1 rfl rfl (by decide)

theorem dict_merge_cons (b : Dict) (kv : String × Value) (rest : Dict) :
    dict_merge b (kv :: rest) = dict_merge (dict_set b kv.1 kv.2) rest := rfl

theorem dict_set_id (b : Dict) (k : String) (v : Value)
    (hex : ∃ e ∈ b, e.1 = k) (hval : ∀ e ∈ b, e.1 = k → e.2 = v) :
    dict_set b k v = b := by
  unfold dict_set
  have hsome : (List.find? (fun kv => kv.1 == k) b).isSome := by
    rw [List.find?_isSome]
    obtain ⟨e, he, hek⟩ := hex
    exact ⟨e, he, by simp [hek]⟩
  rw [if_pos hsome]
  conv_rhs => rw [← List.map_id b]
  apply List.map_congr_left
  intro e he
  by_cases hek : e.1 = k
  · have hv := hval e he hek
    cases e
    simp_all
  · simp [hek]

theorem dict_set_self (b : Dict) (k : String) (v : Value) :
    (∃ e ∈ dict_set b k v, e.1 = k) ∧ ∀ e ∈ dict_set b k v, e.1 = k → e.2 = v := by
  unfold dict_set
  by_cases hs : (List.find? (fun kv => kv.1 == k) b).isSome
  · rw [if_pos hs]
    obtain ⟨x, hx, hpx⟩ := List.find?_isSome.mp hs
    constructor
    · refine ⟨(k, v), ?_, rfl⟩
      rw [List.mem_map]
      exact ⟨x, hx, by simp [show (x.1 == k) = true from hpx]⟩
    · intro e he hek
      rw [List.mem_map] at he
      obtain ⟨y, hy, hye⟩ := he
      by_cases hyk : y.1 = k
      · rw [if_pos (by simp [hyk])] at hye
        rw [← hye]
      · rw [if_neg (by simp [hyk])] at hye
        exact absurd (hye ▸ hek) hyk
  · rw [if_neg hs]
    have hn : List.find? (fun kv => kv.1 == k) b = none :=
      Option.not_isSome_iff_eq_none.mp hs
    have hnone : ∀ x ∈ b, ¬((fun kv => kv.1 == k) x = true) :=
      fun x hx => List.find?_eq_none.mp hn x hx
    constructor
    · exact ⟨(k, v), by simp, rfl⟩
    · intro e he hek
      rcases List.mem_append.mp he with h | h
      · exact absurd (by simp [hek]) (hnone e h)
      · simp at h
        rw [h]

theorem dict_set_keeps (b : Dict) (k2 : String) (v2 : Value) (k : String) (v : Value)
    (hk : k ≠ k2) (hex : ∃ e ∈ b, e.1 = k) (hval : ∀ e ∈ b, e.1 = k → e.2 = v) :
    (∃ e ∈ dict_set b k2 v2, e.1 = k) ∧ ∀ e ∈ dict_set b k2 v2, e.1 = k → e.2 = v := by
  unfold dict_set
  by_cases hs : (List.find? (fun kv => kv.1 == k2) b).isSome
  · rw [if_pos hs]
    constructor
    · obtain ⟨e, he, hek⟩ := hex
      refine ⟨e, ?_, hek⟩
      rw [List.mem_map]
      exact ⟨e, he, by rw [if_neg (by simp [hek, hk])]⟩
    · intro e he hek
      rw [List.mem_map] at he
      obtain ⟨y, hy, hye⟩ := he
      by_cases hyk : y.1 = k2
      · rw [if_pos (by simp [hyk])] at hye
        rw [← hye] at hek
        simp at hek
        exact absurd hek.symm hk
      · rw [if_neg (by simp [hyk])] at hye
        exact hval e (hye ▸ hy) hek
  · rw [if_neg hs]
    constructor
    · obtain ⟨e, he, hek⟩ := hex
      exact ⟨e, List.mem_append_left _ he, hek⟩
    · intro e he hek
      rcases List.mem_append.mp he with h | h
      · exact hval e h hek
      · simp at h
        rw [h] at hek
        simp at hek
        exact absurd hek.symm hk

theorem dict_merge_keeps (p : Dict) :
    ∀ (b : Dict) (k : String) (v : Value), k ∉ p.map Prod.fst →
      (∃ e ∈ b, e.1 = k) → (∀ e ∈ b, e.1 = k → e.2 = v) →
      (∃ e ∈ dict_merge b p, e.1 = k) ∧ ∀ e ∈ dict_merge b p, e.1 = k → e.2 = v := by
  induction p with
  | nil => intro b k v _ hex hval; exact ⟨hex, hval⟩
  | cons hd rest ih =>
      intro b k v hk hex hval
      have hk1 : k ≠ hd.1 := by
        intro h
        exact hk (by rw [h]; exact List.mem_map_of_mem Prod.fst (List.mem_cons_self hd rest))
      have hk2 : k ∉ rest.map Prod.fst := fun h => hk (by simp [h])
      have hstep := dict_set_keeps b hd.1 hd.2 k v hk1 hex hval
      rw [dict_merge_cons]
      exact ih (dict_set b hd.1 hd.2) k v hk2 hstep.1 hstep.2

theorem dict_merge_establishes (p : Dict) :
    ∀ (b : Dict), (p.map Prod.fst).Nodup →
      ∀ kv ∈ p, (∃ e ∈ dict_merge b p, e.1 = kv.1) ∧
        ∀ e ∈ dict_merge b p, e.1 = kv.1 → e.2 = kv.2 := by
  induction p with
  | nil => intro b _ kv h; exact absurd h (List.not_mem_nil kv)
  | cons hd rest ih =>
      intro b hnd kv hkv
      rw [List.map_cons, List.nodup_cons] at hnd
      rcases List.mem_cons.mp hkv with h | h
      · subst h
        have h1 := dict_set_self b kv.1 kv.2
        rw [dict_merge_cons]
        exact dict_merge_keeps rest (dict_set b kv.1 kv.2) kv.1 kv.2 hnd.1 h1.1 h1.2
      · rw [dict_merge_cons]
        exact ih (dict_set b hd.1 hd.2) hnd.2 kv h

theorem dict_merge_id (p : Dict) :
    ∀ (b : Dict),
      (∀ kv ∈ p, (∃ e ∈ b, e.1 = kv.1) ∧ ∀ e ∈ b, e.1 = kv.1 → e.2 = kv.2) →
      dict_merge b p = b := by
  induction p with
  | nil => intro b _; rfl
  | cons hd rest ih =>
      intro b h
      have h0 := h hd (List.mem_cons_self hd rest)
      rw [dict_merge_cons, dict_set_id b hd.1 hd.2 h0.1 h0.2]
      exact ih b (fun kv hkv => h kv (List.mem_cons_of_mem hd hkv))

theorem dict_merge_merge (b p : Dict) (hnd : (p.map Prod.fst).Nodup) :
    dict_merge (dict_merge b p) p = dict_merge b p :=
  dict_merge_id p (dict_merge b p) (fun kv hkv => dict_merge_establishes p b hnd kv hkv)

theorem nodup_key_unique (d : Dict) (hnd : (d.map Prod.fst).Nodup) :
    ∀ kv ∈ d, ∀ e ∈ d, e.1 = kv.1 → e.2 = kv.2 := by
  induction d with
  | nil => intro kv h; exact absurd h (List.not_mem_nil kv)
  | cons hd rest ih =>
      rw [List.map_cons, List.nodup_cons] at hnd
      intro kv hkv e he hek
      rcases List.mem_cons.mp hkv with h | h
      · subst h
        rcases List.mem_cons.mp he with h2 | h2
        · rw [h2]
        · exact absurd (hek ▸ List.mem_map_of_mem Prod.fst h2) hnd.1
      · rcases List.mem_cons.mp he with h2 | h2
        · subst h2
          exact absurd (hek ▸ List.mem_map_of_mem Prod.fst h) (hek ▸ hnd.1)
        · exact ih hnd.2 kv h e h2 hek

theorem normalize_keys (db : String) (p : Dict) :
    (normalize_payload_for_target db p).map Prod.fst = p.map Prod.fst := by
  unfold normalize_payload_for_target
  by_cases h : db ≠ "postgres"
  · rw [if_pos h]
  · rw [if_neg h, List.map_map]
    apply List.map_congr_left
    intro kv _
    simp only [Function.comp_apply]
    split <;> rfl

/-- Claim C6: the replication upsert is idempotent — applying the same
payload's upsert twice leaves the target table exactly as applying it
once does.  The payload is a Python dict, hence has no duplicate keys. -/
theorem claim_C6_upsert_idempotent (target_db : String) (t t1 : SqlTable) (payload : Dict)
    (hnd : (payload.map Prod.fst).Nodup)
    (h : upsert_row target_db t payload = Except.ok t1) :
    upsert_row target_db t1 payload = Except.ok t1 := by
  have hnd2 : ((normalize_payload_for_target target_db payload).map Prod.fst).Nodup := by
    rw [normalize_keys]
    exact hnd
  have hndf : ((List.filter (fun kv => kv.1 != "id")
      (normalize_payload_for_target target_db payload)).map Prod.fst).Nodup :=
    ((List.filter_sublist _).map Prod.fst).nodup hnd2
  simp only [upsert_row] at h ⊢
  cases hid : dict_get (normalize_payload_for_target target_db payload) "id" with
  | none =>
      rw [hid] at h
      simp at h
  | some idv =>
      rw [hid] at h
      dsimp only at h ⊢
      by_cases hfind : (List.find? (fun r => r.1 == idv) t).isSome
      · rw [if_pos hfind] at h
        injection h with h2
        subst h2
        obtain ⟨r0, hr0, hr0k⟩ := List.find?_isSome.mp hfind
        have hfind2 : (List.find? (fun r => r.1 == idv) (List.map
            (fun r =>
              if r.1 == idv then
                (r.1, dict_merge r.2 (List.filter (fun kv => kv.1 != "id")
                  (normalize_payload_for_target target_db payload)))
              else r) t)).isSome := by
          rw [List.find?_isSome]
          refine ⟨(r0.1, dict_merge r0.2 (List.filter (fun kv => kv.1 != "id")
            (normalize_payload_for_target target_db payload))), ?_, hr0k⟩
          rw [List.mem_map]
          exact ⟨r0, hr0, by rw [if_pos hr0k]⟩
        rw [if_pos hfind2]
        congr 1
        rw [List.map_map]
        apply List.map_congr_left
        intro r _
        by_cases hk : (r.1 == idv) = true
        · simp only [Function.comp_apply, hk, if_true]
          rw [dict_merge_merge _ _ hndf]
        · have hk2 : ¬ r.1 = idv := by simpa using hk
          simp [hk2]
      · rw [if_neg hfind] at h
        injection h with h2
        subst h2
        have hfind2 : (List.find? (fun r => r.1 == idv)
            (t ++ [(idv, normalize_payload_for_target target_db payload)])).isSome := by
          rw [List.find?_isSome]
          exact ⟨(idv, normalize_payload_for_target target_db payload), by simp, by simp⟩
        rw [if_pos hfind2]
        congr 1
        rw [List.map_append]
        have hn : List.find? (fun r => r.1 == idv) t = none :=
          Option.not_isSome_iff_eq_none.mp hfind
        have hnone : ∀ x ∈ t, ¬((fun r => r.1 == idv) x = true) :=
          fun x hx => List.find?_eq_none.mp hn x hx
        have hleft : List.map
            (fun r =>
              if r.1 == idv then
                (r.1, dict_merge r.2 (List.filter (fun kv => kv.1 != "id")
                  (normalize_payload_for_target target_db payload)))
              else r) t = t := by
          conv_rhs => rw [← List.map_id t]
          apply List.map_congr_left
          intro r hr
          rw [if_neg (hnone r hr)]
          rfl
        rw [hleft]
        congr 1
        have habs : dict_merge (normalize_payload_for_target target_db payload)
            (List.filter (fun kv => kv.1 != "id")
              (normalize_payload_for_target target_db payload)) =
            normalize_payload_for_target target_db payload := by
          apply dict_merge_id
          intro kv hkv
          have hmem : kv ∈ normalize_payload_for_target target_db payload :=
            List.mem_of_mem_filter hkv
          exact ⟨⟨kv, hmem, rfl⟩, fun e he hek =>
            nodup_key_unique (normalize_payload_for_target target_db payload) hnd2 kv
              hmem e he hek⟩
        simp [habs]

/-- Witness for C6: a concrete payload upserted twice into an initially
empty table. -/
theorem claim_C6_upsert_idempotent_witness :
    upsert_row "mysql"
        [(Value.vInt 1, [("id", Value.vInt 1), ("title", Value.vStr "bike")])]
        [("id", Value.vInt 1), ("title", Value.vStr "bike")] =
      Except.ok [(Value.vInt 1, [("id", Value.vInt 1), ("title", Value.vStr "bike")])] :=
  claim_C6_upsert_idempotent "mysql" []
    [(Value.vInt 1, [("id", Value.vInt 1), ("title", Value.vStr "bike")])]
    [("id", Value.vInt 1), ("title", Value.vStr "bike")] (by simp) (by rfl)

theorem add_target_mem (l : List String) (t x : String) (h : x ∈ l) : x ∈ add_target l t := by
  unfold add_target
  split
  · exact h
  · exact List.mem_append_left _ h

theorem add_target_self (l : List String) (t : String) : t ∈ add_target l t := by
  unfold add_target
  split
  · next h => simpa using h
  · simp

theorem resolve_step_targets_mono (now : Int) (force : Bool) (acc : List String × List Nat)
    (c : SyncConfigRow) (x : String) (h : x ∈ acc.1) : x ∈ (resolve_step now force acc c).1 := by
  unfold resolve_step
  split
  · exact add_target_mem _ _ _ h
  · split
    · exact h
    · split
      · exact add_target_mem _ _ _ h
      · split
        · exact add_target_mem _ _ _ h
        · exact h

theorem resolve_step_ids_mono (now : Int) (force : Bool) (acc : List String × List Nat)
    (c : SyncConfigRow) (i : Nat) (h : i ∈ acc.2) : i ∈ (resolve_step now force acc c).2 := by
  unfold resolve_step
  split
  · exact h
  · split
    · exact h
    · split
      · exact List.mem_append_left _ h
      · split
        · exact List.mem_append_left _ h
        · exact h

theorem resolve_fold_targets_mono (now : Int) (force : Bool) :
    ∀ (l : List SyncConfigRow) (acc : List String × List Nat) (x : String),
      x ∈ acc.1 → x ∈ (List.foldl (resolve_step now force) acc l).1 := by
  intro l
  induction l with
  | nil => intro acc x h; exact h
  | cons hd rest ih =>
      intro acc x h
      rw [List.foldl_cons]
      exact ih _ x (resolve_step_targets_mono now force acc hd x h)

theorem resolve_fold_ids_mono (now : Int) (force : Bool) :
    ∀ (l : List SyncConfigRow) (acc : List String × List Nat) (i : Nat),
      i ∈ acc.2 → i ∈ (List.foldl (resolve_step now force) acc l).2 := by
  intro l
  induction l with
  | nil => intro acc i h; exact h
  | cons hd rest ih =>
      intro acc i h
      rw [List.foldl_cons]
      exact ih _ i (resolve_step_ids_mono now force acc hd i h)

theorem resolve_step_realtime (now : Int) (force : Bool) (acc : List String × List Nat)
    (c : SyncConfigRow) (h : c.mode = "realtime") :
    resolve_step now force acc c = (add_target acc.1 c.target, acc.2) := by
  unfold resolve_step
  rw [if_pos (by simp [h])]

theorem resolve_step_scheduled (now : Int) (force : Bool) (acc : List String × List Nat)
    (c : SyncConfigRow) (h : c.mode = "scheduled")
    (hdue : force = true ∨
      scheduled_due now c.last_run_at (effective_interval c.interval_seconds) = true) :
    resolve_step now force acc c = (add_target acc.1 c.target, acc.2 ++ [c.id]) := by
  unfold resolve_step
  rw [if_neg (by simp [h]), if_neg (by simp [h])]
  rcases hdue with hf | hd
  · rw [if_pos hf]
  · by_cases hf : force = true
    · rw [if_pos hf]
    · rw [if_neg hf, if_pos hd]

theorem resolve_step_ids_src (now : Int) (force : Bool) (acc : List String × List Nat)
    (c : SyncConfigRow) (i : Nat) (h : i ∈ (resolve_step now force acc c).2) :
    i ∈ acc.2 ∨ (c.mode = "scheduled" ∧ c.id = i ∧ (force = true ∨
      scheduled_due now c.last_run_at (effective_interval c.interval_seconds) = true)) := by
  unfold resolve_step at h
  split at h
  · exact Or.inl h
  · split at h
    · exact Or.inl h
    · next h2 =>
        have hmode : c.mode = "scheduled" := by simpa using h2
        split at h
        · next hforce =>
            rcases List.mem_append.mp h with h3 | h3
            · exact Or.inl h3
            · simp at h3
              exact Or.inr ⟨hmode, h3.symm, Or.inl hforce⟩
        · next hforce =>
            split at h
            · next hdue =>
                rcases List.mem_append.mp h with h3 | h3
                · exact Or.inl h3
                · simp at h3
                  exact Or.inr ⟨hmode, h3.symm, Or.inr hdue⟩
            · exact Or.inl h

theorem resolve_fold_realtime (now : Int) (force : Bool) :
    ∀ (l : List SyncConfigRow) (acc : List String × List Nat) (c : SyncConfigRow),
      c ∈ l → c.mode = "realtime" →
      c.target ∈ (List.foldl (resolve_step now force) acc l).1 := by
  intro l
  induction l with
  | nil => intro acc c h; exact absurd h (List.not_mem_nil c)
  | cons hd rest ih =>
      intro acc c hc hm
      rw [List.foldl_cons]
      rcases List.mem_cons.mp hc with h | h
      · subst h
        apply resolve_fold_targets_mono
        rw [resolve_step_realtime now force acc c hm]
        exact add_target_self acc.1 c.target
      · exact ih _ c h hm

theorem resolve_fold_scheduled (now : Int) (force : Bool) :
    ∀ (l : List SyncConfigRow) (acc : List String × List Nat) (c : SyncConfigRow),
      c ∈ l → c.mode = "scheduled" →
      (force = true ∨
        scheduled_due now c.last_run_at (effective_interval c.interval_seconds) = true) →
      c.target ∈ (List.foldl (resolve_step now force) acc l).1 ∧
        c.id ∈ (List.foldl (resolve_step now force) acc l).2 := by
  intro l
  induction l with
  | nil => intro acc c h; exact absurd h (List.not_mem_nil c)
  | cons hd rest ih =>
      intro acc c hc hm hdue
      rw [List.foldl_cons]
      rcases List.mem_cons.mp hc with h | h
      · subst h
        constructor
        · apply resolve_fold_targets_mono
          rw [resolve_step_scheduled now force acc c hm hdue]
          exact add_target_self acc.1 c.target
        · apply resolve_fold_ids_mono
          rw [resolve_step_scheduled now force acc c hm hdue]
          exact List.mem_append_right _ (by simp)
      · exact ih _ c h hm hdue

theorem resolve_fold_ids_src (now : Int) (force : Bool) :
    ∀ (l : List SyncConfigRow) (acc : List String × List Nat) (i : Nat),
      i ∈ (List.foldl (resolve_step now force) acc l).2 →
      i ∈ acc.2 ∨ ∃ c ∈ l, c.mode = "scheduled" ∧ c.id = i ∧ (force = true ∨
        scheduled_due now c.last_run_at (effective_interval c.interval_seconds) = true) := by
  intro l
  induction l with
  | nil => intro acc i h; exact Or.inl h
  | cons hd rest ih =>
      intro acc i h
      rw [List.foldl_cons] at h
      rcases ih _ i h with h2 | h2
      · rcases resolve_step_ids_src now force acc hd i h2 with h3 | h3
        · exact Or.inl h3
        · exact Or.inr ⟨hd, List.mem_cons_self hd rest, h3⟩
      · obtain ⟨c, hc, hrest⟩ := h2
        exact Or.inr ⟨c, List.mem_cons_of_mem hd hc, hrest⟩

/-- Claim C7: realtime links always contribute; scheduled links
contribute exactly when forced by the manual trigger or due by interval
(with the null/zero interval falling back to 300 seconds, so a due link
with a stated interval always satisfies the claim's bound); every due
scheduled link gets `last_run_at` set to the current time by the round,
whether or not any change events existed. -/
theorem claim_C7_scheduler (origin : String) (cfgs : List SyncConfigRow) (now : Int)
    (force : Bool) :
    (∀ c ∈ cfgs, cfg_eligible origin c = true → c.mode = "realtime" →
      c.target ∈ (resolve_targets_and_due_scheduled origin cfgs now force).1) ∧
    (∀ c ∈ cfgs, cfg_eligible origin c = true → c.mode = "scheduled" →
      (force = true ∨
        scheduled_due now c.last_run_at (effective_interval c.interval_seconds) = true) →
      c.target ∈ (resolve_targets_and_due_scheduled origin cfgs now force).1 ∧
        c.id ∈ (resolve_targets_and_due_scheduled origin cfgs now force).2) ∧
    (∀ i ∈ (resolve_targets_and_due_scheduled origin cfgs now force).2,
      ∃ c ∈ cfgs, cfg_eligible origin c = true ∧ c.mode = "scheduled" ∧ c.id = i ∧
        (force = true ∨
          scheduled_due now c.last_run_at (effective_interval c.interval_seconds) = true)) ∧
    (∀ (last : Int) (n : Nat),
      scheduled_due now (some last) (effective_interval (some n)) = true →
      (n : Int) ≤ now - last) ∧
    (∀ (has_rows : Bool), ∀ c ∈ cfgs,
      c.id ∈ (resolve_targets_and_due_scheduled origin cfgs now force).2 →
      { c with last_run_at := some now } ∈
        worker_round_configs origin cfgs now force has_rows) := by
  refine ⟨?_, ?_, ?_, ?_, ?_⟩
  · intro c hc he hm
    exact resolve_fold_realtime now force _ _ c (List.mem_filter.mpr ⟨hc, he⟩) hm
  · intro c hc he hm hdue
    exact resolve_fold_scheduled now force _ _ c (List.mem_filter.mpr ⟨hc, he⟩) hm hdue
  · intro i hi
    rcases resolve_fold_ids_src now force _ _ i hi with h | h
    · exact absurd h (List.not_mem_nil i)
    · obtain ⟨c, hc, hrest⟩ := h
      have hf := List.mem_filter.mp hc
      exact ⟨c, hf.1, hf.2, hrest⟩
  · intro last n h
    unfold scheduled_due at h
    simp only [decide_eq_true_eq] at h
    cases n with
    | zero => simp only [effective_interval] at h; omega
    | succ m => simp only [effective_interval] at h; omega
  · intro has_rows c hc hid
    have hsrc := resolve_fold_ids_src now force _ _ c.id hid
    rcases hsrc with h | h
    · exact absurd h (List.not_mem_nil c.id)
    · obtain ⟨c2, hc2, hm2, _, hdue2⟩ := h
      have hf2 := List.mem_filter.mp hc2
      have htgt : c2.target ∈ (resolve_targets_and_due_scheduled origin cfgs now force).1 :=
        (resolve_fold_scheduled now force _ _ c2 hc2 hm2 hdue2).1
      have hne : (resolve_targets_and_due_scheduled origin cfgs now force).1 ≠ [] := by
        intro he
        rw [he] at htgt
        exact absurd htgt (List.not_mem_nil c2.target)
      have hw : worker_round_configs origin cfgs now force has_rows =
          touch_scheduled_last_run cfgs
            (resolve_targets_and_due_scheduled origin cfgs now force).2 now := by
        unfold worker_round_configs
        rw [if_neg (by simpa [List.isEmpty_iff] using hne)]
        cases has_rows <;> rfl
      rw [hw]
      unfold touch_scheduled_last_run
      rw [List.mem_map]
      exact ⟨c, hc, by rw [if_pos (by simpa using hid)]⟩

/-- Witness for C7: one scheduled link, due by interval, contributes its
target and id and gets its `last_run_at` touched. -/
theorem claim_C7_scheduler_witness :
    "mysql" ∈ (resolve_targets_and_due_scheduled "mariadb"
        [{ id := 1, source := "mariadb", target := "mysql", mode := "scheduled",
           interval_seconds := some 300, enabled := true, last_run_at := some 0 }]
        400 false).1 ∧
    ({ id := 1, source := "mariadb", target := "mysql", mode := "scheduled",
       interval_seconds := some 300, enabled := true,
       last_run_at := some 400 } : SyncConfigRow) ∈
      worker_round_configs "mariadb"
        [{ id := 1, source := "mariadb", target := "mysql", mode := "scheduled",
           interval_seconds := some 300, enabled := true, last_run_at := some 0 }]
        400 false false := by
  have h := claim_C7_scheduler "mariadb"
    [{ id := 1, source := "mariadb", target := "mysql", mode := "scheduled",
       interval_seconds := some 300, enabled := true, last_run_at := some 0 }]
    400 false
  refine ⟨?_, ?_⟩
  · exact (h.2.1
      { id := 1, source := "mariadb", target := "mysql", mode := "scheduled",
        interval_seconds := some 300, enabled := true, last_run_at := some 0 }
      (by simp) (by decide) rfl (Or.inr (by decide))).1
  · exact h.2.2.2.2 false
      { id := 1, source := "mariadb", target := "mysql", mode := "scheduled",
        interval_seconds := some 300, enabled := true, last_run_at := some 0 }
      (by simp)
      (h.2.1
        { id := 1, source := "mariadb", target := "mysql", mode := "scheduled",
          interval_seconds := some 300, enabled := true, last_run_at := some 0 }
        (by simp) (by decide) rfl (Or.inr (by decide))).2

theorem tx_loop_shift (results : Nat → Except PyError α) :
    ∀ (k attempt fuel : Nat) (delay : ℚ),
      (∀ j, j < k → ∃ e, results (attempt + j) = Except.error e ∧
        is_retryable_error e = true) →
      k + 1 ≤ fuel →
      tx_loop results attempt fuel delay =
        { outcome := (tx_loop results (attempt + k) (fuel - k)
            (delay * RETRY_BACKOFF ^ k)).outcome,
          sleeps := (List.range k).map (fun i => delay * RETRY_BACKOFF ^ i) ++
            (tx_loop results (attempt + k) (fuel - k) (delay * RETRY_BACKOFF ^ k)).sleeps,
          rollbacks := (tx_loop results (attempt + k) (fuel - k)
            (delay * RETRY_BACKOFF ^ k)).rollbacks + k } := by
  intro k
  induction k with
  | zero =>
      intro attempt fuel delay _ _
      simp
  | succ k2 ih =>
      intro attempt fuel delay hfail hfuel
      obtain ⟨e0, he0, hr0⟩ := hfail 0 (Nat.succ_pos k2)
      rw [Nat.add_zero] at he0
      cases fuel with
      | zero => omega
      | succ fuel2 =>
          have hcond : (is_retryable_error e0 && decide (0 < fuel2)) = true := by
            rw [hr0]
            simp
            omega
          have hstep : tx_loop results attempt (fuel2 + 1) delay =
              { outcome := (tx_loop results (attempt + 1) fuel2
                  (delay * RETRY_BACKOFF)).outcome,
                sleeps := delay :: (tx_loop results (attempt + 1) fuel2
                  (delay * RETRY_BACKOFF)).sleeps,
                rollbacks := (tx_loop results (attempt + 1) fuel2
                  (delay * RETRY_BACKOFF)).rollbacks + 1 } := by
            simp only [tx_loop]
            rw [he0]
            dsimp only
            rw [if_pos hcond]
          rw [hstep]
          have hfail2 : ∀ j, j < k2 → ∃ e, results (attempt + 1 + j) = Except.error e ∧
              is_retryable_error e = true := by
            intro j hj
            have := hfail (j + 1) (by omega)
            rwa [show attempt + (j + 1) = attempt + 1 + j by omega] at this
          have ih2 := ih (attempt + 1) fuel2 (delay * RETRY_BACKOFF) hfail2 (by omega)
          rw [ih2]
          have ha : attempt + 1 + k2 = attempt + (k2 + 1) := by omega
          have hf : fuel2 - k2 = fuel2 + 1 - (k2 + 1) := by omega
          have hd : delay * RETRY_BACKOFF * RETRY_BACKOFF ^ k2 =
              delay * RETRY_BACKOFF ^ (k2 + 1) := by ring
          rw [ha, hf, hd]
          have hsleeps : (List.range (k2 + 1)).map (fun i => delay * RETRY_BACKOFF ^ i) =
              delay :: (List.range k2).map
                (fun i => delay * RETRY_BACKOFF * RETRY_BACKOFF ^ i) := by
            rw [List.range_succ_eq_map, List.map_cons, List.map_map]
            congr 1
            · ring
            · apply List.map_congr_left
              intro i _
              simp only [Function.comp_apply]
              rw [pow_succ]
              ring
          rw [hsleeps, List.cons_append]
          simp only [TxTrace.mk.injEq, true_and]
          omega

/-- Claim C9: under the transaction retry wrapper a non-database error
is never retryable; an error that is not retryable is rolled back and
re-raised on the attempt in which it occurs, with no further retry; a
retryable error is retried up to the configured maximum number of
attempts with sleeps of the base delay multiplied by the backoff once
per completed attempt, and the final attempt's failure propagates. -/
theorem claim_C9_retry_wrapper (results : Nat → Except PyError α) (max_retries : Nat) :
    (∀ e : PyError, e.is_dbapi_error = false → is_retryable_error e = false) ∧
    (∀ (k : Nat) (e : PyError),
      (∀ j, j < k → ∃ e2, results j = Except.error e2 ∧ is_retryable_error e2 = true) →
      results k = Except.error e → is_retryable_error e = false → k < max_retries →
      with_transaction_run results max_retries =
        { outcome := TxOutcome.raised e,
          sleeps := (List.range k).map (fun i => RETRY_DELAY * RETRY_BACKOFF ^ i),
          rollbacks := k + 1 }) ∧
    (∀ (m : Nat) (e : PyError), max_retries = m + 1 →
      (∀ j, j < m → ∃ e2, results j = Except.error e2 ∧ is_retryable_error e2 = true) →
      results m = Except.error e → is_retryable_error e = true →
      with_transaction_run results max_retries =
        { outcome := TxOutcome.raised e,
          sleeps := (List.range m).map (fun i => RETRY_DELAY * RETRY_BACKOFF ^ i),
          rollbacks := m + 1 }) := by
  refine ⟨?_, ?_, ?_⟩
  · intro e he
    simp [is_retryable_error, he]
  · intro k e hfail hke hnr hkm
    have hshift := tx_loop_shift results k 0 max_retries RETRY_DELAY
      (by intro j hj; simpa using hfail j hj) (by omega)
    unfold with_transaction_run
    rw [hshift]
    have hinner : tx_loop results (0 + k) (max_retries - k)
        (RETRY_DELAY * RETRY_BACKOFF ^ k) =
        { outcome := TxOutcome.raised e, sleeps := [], rollbacks := 1 } := by
      rw [Nat.zero_add]
      cases hmf : max_retries - k with
      | zero => omega
      | succ f2 =>
          simp only [tx_loop]
          rw [hke]
          dsimp only
          rw [if_neg (by simp [hnr])]
    rw [hinner]
    simp only [List.append_nil, TxTrace.mk.injEq, true_and]
    omega
  · intro m e hmax hfail hme hre
    subst hmax
    have hshift := tx_loop_shift results m 0 (m + 1) RETRY_DELAY
      (by intro j hj; simpa using hfail j hj) (by omega)
    unfold with_transaction_run
    rw [hshift]
    have hinner : tx_loop results (0 + m) (m + 1 - m)
        (RETRY_DELAY * RETRY_BACKOFF ^ m) =
        { outcome := TxOutcome.raised e, sleeps := [], rollbacks := 1 } := by
      rw [Nat.zero_add, show m + 1 - m = 1 by omega]
      simp only [tx_loop]
      rw [hme]
      dsimp only
      rw [if_neg (by simp)]
    rw [hinner]
    simp only [List.append_nil, TxTrace.mk.injEq, true_and]
    omega

/-- Witness for C9: a retryable deadlock on the first attempt followed
by a non-retryable error on the second, under the default three-attempt
bound: one sleep of the base delay, two rollbacks, and the second error
propagates. -/
theorem claim_C9_retry_wrapper_witness :
    with_transaction_run
        (fun j => if j = 0 then
          Except.error
            { is_dbapi_error := true,
              message := "Deadlock found when trying to get lock" }
        else (Except.error { is_dbapi_error := false, message := "boom" } :
          Except PyError Nat)) 3 =
      { outcome := TxOutcome.raised { is_dbapi_error := false, message := "boom" },
        sleeps := (List.range 1).map (fun i => RETRY_DELAY * RETRY_BACKOFF ^ i),
        rollbacks := 2 } :=
  (claim_C9_retry_wrapper
    (fun j => if j = 0 then
      Except.error
        { is_dbapi_error := true,
          message := "Deadlock found when trying to get lock" }
    else (Except.error { is_dbapi_error := false, message := "boom" } :
      Except PyError Nat)) 3).2.1 1
    { is_dbapi_error := false, message := "boom" }
    (by
      intro j hj
      have hj0 : j = 0 := by omega
      subst hj0
      exact ⟨{ is_dbapi_error := true,
               message := "Deadlock found when trying to get lock" }, rfl, by decide⟩)
    rfl (by decide) (by omega)

theorem uval_lt_irrefl (a : Char) : ¬ a.val < a.val := by
  intro h
  have hh : a.val.toNat < a.val.toNat := h
  omega

theorem uval_lt_asymm {a b : Char} (h : a.val < b.val) : ¬ b.val < a.val := by
  intro h2
  have h3 : a.val.toNat < b.val.toNat := h
  have h4 : b.val.toNat < a.val.toNat := h2
  omega

theorem uval_total {a b : Char} (h1 : ¬ a.val < b.val) (h2 : ¬ b.val < a.val) : a = b := by
  apply Char.ext
  apply UInt32.ext
  have h3 : ¬ a.val.toNat < b.val.toNat := fun hh => h1 hh
  have h4 : ¬ b.val.toNat < a.val.toNat := fun hh => h2 hh
  omega

theorem char_list_lt_asymm :
    ∀ (x y : List Char), char_list_lt x y = true → char_list_lt y x = false := by
  intro x
  induction x with
  | nil =>
      intro y h
      cases y with
      | nil => simp [char_list_lt] at h
      | cons b bs => simp [char_list_lt]
  | cons a as ih =>
      intro y h
      cases y with
      | nil => simp [char_list_lt] at h
      | cons b bs =>
          simp only [char_list_lt, Bool.or_eq_true, Bool.and_eq_true,
            decide_eq_true_eq] at h
          rcases h with h1 | ⟨h2, h3⟩
          · have hna : ¬ b.val < a.val := uval_lt_asymm h1
            have hne : ¬ b = a := by
              intro he
              subst he
              exact uval_lt_irrefl b h1
            simp [char_list_lt, hna, hne]
          · subst h2
            have h4 := ih bs h3
            simp [char_list_lt, uval_lt_irrefl a, h4]

theorem char_list_lt_total :
    ∀ (x y : List Char), char_list_lt x y = false → char_list_lt y x = false → x = y := by
  intro x
  induction x with
  | nil =>
      intro y h1 h2
      cases y with
      | nil => rfl
      | cons b bs => simp [char_list_lt] at h1
  | cons a as ih =>
      intro y h1 h2
      cases y with
      | nil => simp [char_list_lt] at h2
      | cons b bs =>
          rw [Bool.eq_false_iff] at h1 h2
          simp only [char_list_lt, ne_eq, Bool.or_eq_true, Bool.and_eq_true,
            decide_eq_true_eq, not_or, not_and] at h1 h2
          have hab : a = b := uval_total h1.1 h2.1
          subst hab
          have ha1 : char_list_lt as bs = false :=
            Bool.eq_false_iff.mpr (h1.2 rfl)
          have ha2 : char_list_lt bs as = false :=
            Bool.eq_false_iff.mpr (h2.2 rfl)
          rw [ih bs ha1 ha2]

theorem str_lt_total (a b : String) (h1 : str_lt a b = false) (h2 : str_lt b a = false) :
    a = b := by
  cases a with
  | mk da =>
      cases b with
      | mk db => exact congrArg String.mk (char_list_lt_total da db h1 h2)

theorem signature_swap (table_name : String) (record_id : Int) (reason : String)
    (svc tvc : Option VClock) :
    signature_from_sides table_name record_id reason svc tvc =
      signature_from_sides table_name record_id reason tvc svc := by
  unfold signature_from_sides
  by_cases h1 : str_lt (vc_key tvc) (vc_key svc) = true
  · have h2 : str_lt (vc_key svc) (vc_key tvc) = false := char_list_lt_asymm _ _ h1
    simp [h1, h2]
  · have h1f : str_lt (vc_key tvc) (vc_key svc) = false := Bool.eq_false_iff.mpr h1
    by_cases h2 : str_lt (vc_key svc) (vc_key tvc) = true
    · simp [h1f, h2]
    · have h2f : str_lt (vc_key svc) (vc_key tvc) = false := Bool.eq_false_iff.mpr h2
      have he : vc_key svc = vc_key tvc := str_lt_total _ _ h2f h1f
      simp [h1f, h2f, he]

/-- Claim C4: completing the resolution of a pending conflict record
also resolves every other still-pending record of the group with the
same conflict signature, leaves every pending record of the same
`(table_name, record_id)` group with a different signature pending, and
the signature is invariant under swapping the two sides' vector-clock
snapshots. -/
theorem claim_C4_conflict_resolution (table_name : String) (record_id : Int)
    (rows : List ConflictRow) (conflict_id : Nat) (c : ConflictRow) (out : List ConflictRow)
    (hfind : List.find? (fun r => r.id == conflict_id) rows = some c)
    (hok : resolve_conflict_group table_name record_id rows conflict_id = Except.ok out) :
    (∀ r ∈ rows, r.resolved = false →
      conflict_signature table_name record_id r.payload =
        conflict_signature table_name record_id c.payload →
      { r with resolved := true } ∈ out) ∧
    (∀ r ∈ rows, r.resolved = false → r.id ≠ conflict_id →
      conflict_signature table_name record_id r.payload ≠
        conflict_signature table_name record_id c.payload →
      r ∈ out) ∧
    (∀ (reason : String) (svc tvc : Option VClock),
      signature_from_sides table_name record_id reason svc tvc =
        signature_from_sides table_name record_id reason tvc svc) := by
  unfold resolve_conflict_group at hok
  rw [hfind] at hok
  dsimp only at hok
  by_cases hres : c.resolved
  · rw [if_pos hres] at hok
    exact absurd hok (by simp)
  · rw [if_neg hres] at hok
    by_cases hany : List.any rows
        (fun r => r.id != conflict_id && r.resolved &&
          conflict_signature table_name record_id r.payload ==
            conflict_signature table_name record_id c.payload) = true
    · rw [if_pos hany] at hok
      exact absurd hok (by simp)
    · rw [if_neg hany] at hok
      injection hok with hout
      subst hout
      refine ⟨?_, ?_, fun reason svc tvc => signature_swap table_name record_id reason svc tvc⟩
      · intro r hr hrres hsig
        rw [List.mem_map]
        refine ⟨r, hr, ?_⟩
        by_cases hid : (r.id == conflict_id) = true
        · rw [if_pos hid]
        · rw [if_neg hid, if_pos (by simp [hrres, hsig])]
      · intro r hr hrres hrid hsig
        rw [List.mem_map]
        refine ⟨r, hr, ?_⟩
        rw [if_neg (by simp [hrid]), if_neg (by simp [hsig])]

/-- Witness for C4 at a concrete group: resolving conflict 1 also
resolves the duplicate conflict 2 with the same signature and leaves
conflict 3 (different reason, hence different signature) pending. -/
theorem claim_C4_conflict_resolution_witness :
    ({ id := 2, resolved := true,
       payload :=
         { reason := some "vector_clock_conflict",
           source_new := some [("v_clock", Value.vClock { N := 2, S := 0 })],
           source_old := none,
           target_current := some [("v_clock", Value.vClock { N := 1, S := 1 })] } } :
      ConflictRow) ∈
      [({ id := 1, resolved := true,
          payload :=
            { reason := some "vector_clock_conflict",
              source_new := some [("v_clock", Value.vClock { N := 2, S := 0 })],
              source_old := none,
              target_current := some [("v_clock", Value.vClock { N := 1, S := 1 })] } } :
          ConflictRow),
        { id := 2, resolved := true,
          payload :=
            { reason := some "vector_clock_conflict",
              source_new := some [("v_clock", Value.vClock { N := 2, S := 0 })],
              source_old := none,
              target_current := some [("v_clock", Value.vClock { N := 1, S := 1 })] } },
        { id := 3, resolved := false,
          payload :=
            { reason := some "vector_clock_conflict_delete",
              source_new := some [("v_clock", Value.vClock { N := 2, S := 0 })],
              source_old := none,
              target_current := some [("v_clock", Value.vClock { N := 1, S := 1 })] } }] ∧
    ({ id := 3, resolved := false,
       payload :=
         { reason := some "vector_clock_conflict_delete",
           source_new := some [("v_clock", Value.vClock { N := 2, S := 0 })],
           source_old := none,
           target_current := some [("v_clock", Value.vClock { N := 1, S := 1 })] } } :
      ConflictRow) ∈
      [({ id := 1, resolved := true,
          payload :=
            { reason := some "vector_clock_conflict",
              source_new := some [("v_clock", Value.vClock { N := 2, S := 0 })],
              source_old := none,
              target_current := some [("v_clock", Value.vClock { N := 1, S := 1 })] } } :
          ConflictRow),
        { id := 2, resolved := true,
          payload :=
            { reason := some "vector_clock_conflict",
              source_new := some [("v_clock", Value.vClock { N := 2, S := 0 })],
              source_old := none,
              target_current := some [("v_clock", Value.vClock { N := 1, S := 1 })] } },
        { id := 3, resolved := false,
          payload :=
            { reason := some "vector_clock_conflict_delete",
              source_new := some [("v_clock", Value.vClock { N := 2, S := 0 })],
              source_old := none,
              target_current := some [("v_clock", Value.vClock { N := 1, S := 1 })] } }] := by
  have h := claim_C4_conflict_resolution "items" 5
    [{ id := 1, resolved := false,
       payload :=
         { reason := some "vector_clock_conflict",
           source_new := some [("v_clock", Value.vClock { N := 2, S := 0 })],
           source_old := none,
           target_current := some [("v_clock", Value.vClock { N := 1, S := 1 })] } },
     { id := 2, resolved := false,
       payload :=
         { reason := some "vector_clock_conflict",
           source_new := some [("v_clock", Value.vClock { N := 2, S := 0 })],
           source_old := none,
           target_current := some [("v_clock", Value.vClock { N := 1, S := 1 })] } },
     { id := 3, resolved := false,
       payload :=
         { reason := some "vector_clock_conflict_delete",
           source_new := some [("v_clock", Value.vClock { N := 2, S := 0 })],
           source_old := none,
           target_current := some [("v_clock", Value.vClock { N := 1, S := 1 })] } }]
    1
    { id := 1, resolved := false,
      payload :=
        { reason := some "vector_clock_conflict",
          source_new := some [("v_clock", Value.vClock { N := 2, S := 0 })],
          source_old := none,
          target_current := some [("v_clock", Value.vClock { N := 1, S := 1 })] } }
    _ rfl rfl
  constructor
  · exact h.1
      { id := 2, resolved := false,
        payload :=
          { reason := some "vector_clock_conflict",
            source_new := some [("v_clock", Value.vClock { N := 2, S := 0 })],
            source_old := none,
            target_current := some [("v_clock", Value.vClock { N := 1, S := 1 })] } }
      (by simp) rfl rfl
  · exact h.2.1
      { id := 3, resolved := false,
        payload :=
          { reason := some "vector_clock_conflict_delete",
            source_new := some [("v_clock", Value.vClock { N := 2, S := 0 })],
            source_old := none,
            target_current := some [("v_clock", Value.vClock { N := 1, S := 1 })] } }
      (by simp) rfl (by decide) (by decide)

theorem snowflake_encode_lt_ms {epoch worker : Nat} {ms1 ms2 : Int} {s1 s2 : Nat}
    (hw : worker ≤ 1023) (h1 : (epoch : Int) ≤ ms1) (h2 : ms1 < ms2)
    (h3 : ms2 < (epoch : Int) + 2 ^ 41) (hs1 : s1 < 4096) :
    snowflake_encode epoch worker ms1 s1 < snowflake_encode epoch worker ms2 s2 := by
  unfold snowflake_encode
  have e1 : (ms1 - (epoch : Int)) % (2 ^ 41 : Int) = ms1 - (epoch : Int) :=
    Int.emod_eq_of_lt (by omega) (by omega)
  have e2 : (ms2 - (epoch : Int)) % (2 ^ 41 : Int) = ms2 - (epoch : Int) :=
    Int.emod_eq_of_lt (by omega) (by omega)
  rw [e1, e2]
  have ht : (ms1 - (epoch : Int)).toNat < (ms2 - (epoch : Int)).toNat := by omega
  have hb : worker * 2 ^ 12 + s1 < 2 ^ 22 := by
    have : worker * 2 ^ 12 ≤ 1023 * 2 ^ 12 := Nat.mul_le_mul_right _ hw
    omega
  omega

theorem snowflake_encode_lt_seq {epoch worker : Nat} {ms : Int} {s1 s2 : Nat}
    (h : s1 < s2) :
    snowflake_encode epoch worker ms s1 < snowflake_encode epoch worker ms s2 := by
  unfold snowflake_encode
  omega

theorem snowflake_step_spec (epoch worker : Nat) (st : SnowflakeState) (now wait : Nat)
    (hw : worker ≤ 1023)
    (hinv : (epoch : Int) ≤ st.last_ms ∧ st.last_ms < (epoch : Int) + 2 ^ 41 ∧
      st.seq < 4096)
    (hnow : (epoch : Int) ≤ (now : Int) ∧ (now : Int) < (epoch : Int) + 2 ^ 41)
    (hwait : (¬ st.last_ms < (now : Int)) ∧ (st.seq + 1) % 4096 = 0 →
      st.last_ms < (wait : Int) ∧ (wait : Int) < (epoch : Int) + 2 ^ 41) :
    ((epoch : Int) ≤ (snowflake_step epoch worker st now wait).1.last_ms ∧
      (snowflake_step epoch worker st now wait).1.last_ms < (epoch : Int) + 2 ^ 41 ∧
      (snowflake_step epoch worker st now wait).1.seq < 4096) ∧
    (snowflake_step epoch worker st now wait).2 =
      snowflake_encode epoch worker (snowflake_step epoch worker st now wait).1.last_ms
        (snowflake_step epoch worker st now wait).1.seq ∧
    snowflake_encode epoch worker st.last_ms st.seq <
      (snowflake_step epoch worker st now wait).2 := by
  unfold snowflake_step
  by_cases hle : (now : Int) ≤ st.last_ms
  · have h1 : (if (now : Int) < st.last_ms then st.last_ms else (now : Int)) =
        st.last_ms := by
      split <;> omega
    rw [h1]
    rw [if_pos rfl]
    by_cases hov : (st.seq + 1) % 4096 = 0
    · have hw2 := hwait ⟨by omega, hov⟩
      rw [if_pos hov]
      dsimp only
      refine ⟨⟨by omega, by omega, by omega⟩, rfl, ?_⟩
      exact snowflake_encode_lt_ms hw hinv.1 hw2.1 hw2.2 hinv.2.2
    · rw [if_neg hov]
      dsimp only
      have hseq : (st.seq + 1) % 4096 = st.seq + 1 := by omega
      refine ⟨⟨hinv.1, hinv.2.1, by omega⟩, rfl, ?_⟩
      apply snowflake_encode_lt_seq
      omega
  · have h1 : (if (now : Int) < st.last_ms then st.last_ms else (now : Int)) =
        (now : Int) := by
      split <;> omega
    rw [h1]
    rw [if_neg (by omega)]
    dsimp only
    refine ⟨⟨hnow.1, hnow.2, by omega⟩, rfl, ?_⟩
    exact snowflake_encode_lt_ms hw hinv.1 (by omega) hnow.2 hinv.2.2

theorem snowflake_run_chain (epoch worker : Nat) (hw : worker ≤ 1023) :
    ∀ (inputs : List (Nat × Nat)) (st : SnowflakeState),
      ((epoch : Int) ≤ st.last_ms ∧ st.last_ms < (epoch : Int) + 2 ^ 41 ∧
        st.seq < 4096) →
      snowflake_valid epoch worker st inputs = true →
      List.Chain' (fun a b => a < b) (snowflake_run epoch worker st inputs) ∧
      ∀ x, (snowflake_run epoch worker st inputs).head? = some x →
        snowflake_encode epoch worker st.last_ms st.seq < x := by
  intro inputs
  induction inputs with
  | nil =>
      intro st _ _
      constructor
      · simp [snowflake_run]
      · intro x hx
        simp [snowflake_run] at hx
  | cons p rest ih =>
      obtain ⟨now, wait⟩ := p
      intro st hinv hvalid
      simp only [snowflake_valid, Bool.and_eq_true, decide_eq_true_eq] at hvalid
      obtain ⟨⟨⟨hn1, hn2⟩, hif⟩, hrest⟩ := hvalid
      have hwait : (¬ st.last_ms < (now : Int)) ∧ (st.seq + 1) % 4096 = 0 →
          st.last_ms < (wait : Int) ∧ (wait : Int) < (epoch : Int) + 2 ^ 41 := by
        intro hc
        rw [if_pos hc] at hif
        simpa using hif
      have hstep := snowflake_step_spec epoch worker st now wait hw hinv ⟨hn1, hn2⟩ hwait
      have ih2 := ih (snowflake_step epoch worker st now wait).1 hstep.1 hrest
      constructor
      · show List.Chain' (fun a b => a < b)
          ((snowflake_step epoch worker st now wait).2 ::
            snowflake_run epoch worker (snowflake_step epoch worker st now wait).1 rest)
        rw [List.chain'_cons']
        refine ⟨?_, ih2.1⟩
        intro y hy
        have := ih2.2 y hy
        rw [hstep.2.1]
        exact this
      · intro x hx
        have hx2 : (snowflake_step epoch worker st now wait).2 = x := by
          simpa [snowflake_run] using hx
        rw [← hx2]
        exact hstep.2.2

/-- Claim C8: under any valid trace of clock readings — including
regressing readings, which are clamped to the last recorded
millisecond — the emitted identifiers are strictly increasing, hence
pairwise distinct; within one millisecond the 12-bit sequence increments
by one, and it wraps to zero only together with the spin-wait advancing
`last_ms` to a strictly later millisecond. -/
theorem claim_C8_snowflake (epoch_ms worker_id : Nat) (inputs : List (Nat × Nat))
    (hw : worker_id ≤ 1023)
    (hv : snowflake_valid epoch_ms worker_id snowflake_init inputs = true) :
    List.Chain' (fun a b => a < b)
      (snowflake_run epoch_ms worker_id snowflake_init inputs) ∧
    List.Pairwise (fun a b => a < b)
      (snowflake_run epoch_ms worker_id snowflake_init inputs) ∧
    (∀ (st : SnowflakeState) (now wait : Nat),
      ¬ st.last_ms < (now : Int) → (st.seq + 1) % 4096 ≠ 0 →
      (snowflake_step epoch_ms worker_id st now wait).1 =
        { last_ms := st.last_ms, seq := (st.seq + 1) % 4096 }) ∧
    (∀ (st : SnowflakeState) (now wait : Nat),
      ¬ st.last_ms < (now : Int) → (st.seq + 1) % 4096 = 0 →
      (snowflake_step epoch_ms worker_id st now wait).1 =
        { last_ms := (wait : Int), seq := 0 }) := by
  have hchain : List.Chain' (fun a b => a < b)
      (snowflake_run epoch_ms worker_id snowflake_init inputs) := by
    cases inputs with
    | nil => simp [snowflake_run]
    | cons p rest =>
        obtain ⟨now, wait⟩ := p
        simp only [snowflake_valid, Bool.and_eq_true, decide_eq_true_eq] at hv
        obtain ⟨⟨⟨hn1, hn2⟩, _⟩, hrest⟩ := hv
        have hfirst : snowflake_step epoch_ms worker_id snowflake_init now wait =
            ({ last_ms := (now : Int), seq := 0 },
              snowflake_encode epoch_ms worker_id (now : Int) 0) := by
          unfold snowflake_step snowflake_init
          dsimp only
          have h1 : (if (now : Int) < (-1 : Int) then (-1 : Int) else (now : Int)) =
              (now : Int) := by
            split <;> omega
          rw [h1]
          rw [if_neg (by omega)]
        show List.Chain' (fun a b => a < b)
          ((snowflake_step epoch_ms worker_id snowflake_init now wait).2 ::
            snowflake_run epoch_ms worker_id
              (snowflake_step epoch_ms worker_id snowflake_init now wait).1 rest)
        rw [List.chain'_cons']
        have hinv1 : (epoch_ms : Int) ≤
            (snowflake_step epoch_ms worker_id snowflake_init now wait).1.last_ms ∧
            (snowflake_step epoch_ms worker_id snowflake_init now wait).1.last_ms <
              (epoch_ms : Int) + 2 ^ 41 ∧
            (snowflake_step epoch_ms worker_id snowflake_init now wait).1.seq < 4096 := by
          rw [hfirst]
          exact ⟨hn1, hn2, by show (0 : Nat) < 4096; omega⟩
        have ih2 := snowflake_run_chain epoch_ms worker_id hw rest
          (snowflake_step epoch_ms worker_id snowflake_init now wait).1 hinv1 hrest
        refine ⟨?_, ih2.1⟩
        intro y hy
        have hlt := ih2.2 y hy
        have henc : (snowflake_step epoch_ms worker_id snowflake_init now wait).2 =
            snowflake_encode epoch_ms worker_id
              (snowflake_step epoch_ms worker_id snowflake_init now wait).1.last_ms
              (snowflake_step epoch_ms worker_id snowflake_init now wait).1.seq := by
          rw [hfirst]
        rw [henc]
        exact hlt
  refine ⟨hchain, List.chain'_iff_pairwise.mp hchain, ?_, ?_⟩
  · intro st now wait hle hov
    unfold snowflake_step
    have h1 : (if (now : Int) < st.last_ms then st.last_ms else (now : Int)) =
        st.last_ms := by
      split <;> omega
    rw [h1, if_pos rfl, if_neg hov]
  · intro st now wait hle hov
    unfold snowflake_step
    have h1 : (if (now : Int) < st.last_ms then st.last_ms else (now : Int)) =
        st.last_ms := by
      split <;> omega
    rw [h1, if_pos rfl, if_pos hov]

/-- Witness for C8: three calls with a same-millisecond repeat and a
backwards clock reading still emit strictly increasing identifiers. -/
theorem claim_C8_snowflake_witness :
    List.Chain' (fun a b => a < b)
      (snowflake_run 0 1 snowflake_init [(5, 0), (5, 6), (3, 0)]) :=
  (claim_C8_snowflake 0 1 [(5, 0), (5, 6), (3, 0)] (by omega) (by rfl)).1

end CampusSync
